import Mathlib

/-!
# Verification of the insurance-supplement orchestration core

A shallow embedding, in Lean 4, of the consensus/merge algorithms, the
review loop and the orchestrator result logic of the `ins-sup-agent`
repository, together with theorems settling the frozen claims about it.

Conventions of the embedding:
* Python `float` fields are modelled as `ℚ` (the claims are about exact
  arithmetic relations between the fields; every operation involved is
  `+`, `-`, `*`, `/` and comparisons, so rationals are a faithful carrier).
* Python strings are Lean `String`; `str.lower()` is `pyLower`,
  `str.strip()` is `pyStrip`, `s[:n]` is `pyTake` (structural, per code
  point, so concrete runs reduce in the kernel).
* Python dict iteration order (insertion order) is modelled explicitly with
  association lists; Python `set` values that are only used for membership
  are modelled as lists with `contains`.
* LLM calls are oracles: a framework's model responses and the review
  agent's verdicts are universally quantified inputs.
-/

namespace InsSup

/-- Severity levels of a scope gap (`ScopeGap.severity`, a `Literal` in
`src/schemas/gaps.py`). -/
inductive Severity
  | critical
  | major
  | minor
deriving DecidableEq, Repr

/-- A scope gap, from `src/schemas/gaps.py` (`ScopeGap`).  The category is
kept as a string: the merge algorithms only ever compare it and embed it in
keys. -/
structure ScopeGap where
  gap_id : String
  category : String
  severity : Severity
  description : String
  linked_photos : List String
  linked_estimate_lines : List String
  confidence : ℚ
  unpaid_work_risk : Bool
  notes : Option String
deriving DecidableEq, Repr

/-- Coverage summary, from `src/schemas/gaps.py` (`CoverageSummary`). -/
structure CoverageSummary where
  critical_gaps : ℕ
  major_gaps : ℕ
  minor_gaps : ℕ
  total_unpaid_risk_items : ℕ
  narrative : String
deriving DecidableEq, Repr

/-- Gap analysis result, from `src/schemas/gaps.py` (`GapAnalysis`). -/
structure GapAnalysis where
  scope_gaps : List ScopeGap
  coverage_summary : CoverageSummary
deriving DecidableEq, Repr

/-- Margin analysis, from `src/schemas/supplements.py` (`MarginAnalysis`). -/
structure MarginAnalysis where
  original_estimate : ℚ
  total_costs : ℚ
  current_margin : ℚ
  proposed_supplement_total : ℚ
  new_estimate_total : ℚ
  projected_margin : ℚ
  target_margin : ℚ
  margin_gap_remaining : ℚ
  target_achieved : Bool
deriving DecidableEq, Repr

/-- A supplement proposal, from `src/schemas/supplements.py`
(`SupplementProposal`). -/
structure SupplementProposal where
  supplement_id : String
  type : String
  line_item_description : String
  justification : String
  source : String
  linked_gaps : List String
  linked_photos : List String
  code_citation : Option String
  quantity : ℚ
  unit : String
  estimated_unit_price : ℚ
  estimated_value : ℚ
  confidence : ℚ
  pushback_risk : String
  priority : String
deriving DecidableEq, Repr

/-- A supplement strategy, from `src/schemas/supplements.py`
(`SupplementStrategy`). -/
structure SupplementStrategy where
  supplements : List SupplementProposal
  margin_analysis : MarginAnalysis
  strategy_notes : List String
deriving DecidableEq, Repr

/-! ## Generic helpers shared by the merge algorithms -/

/-- Helper for `dedupFirst`: drop keys already seen, in order. -/
def dedupFirstAux (seen : List String) : List String → List String
  | [] => []
  | k :: ks =>
    if seen.contains k then dedupFirstAux seen ks
    else k :: dedupFirstAux (seen ++ [k]) ks

/-- First-occurrence deduplication: the key iteration order of a Python
dict built by appending (`for x in xs: d.setdefault(key(x), []).append(x)`). -/
def dedupFirst (l : List String) : List String :=
  dedupFirstAux [] l

/-- Python `max(xs, key=f)` starting from `best`: the first element with a
strictly larger key replaces the running maximum, so the first maximal
element wins. -/
def pyMaxBy (f : α → ℚ) (best : α) : List α → α
  | [] => best
  | x :: xs => if f best < f x then pyMaxBy f x xs else pyMaxBy f best xs

/-- Lookup in an association list (Python dict read access). -/
def lookupStr (m : List (String × α)) (k : String) : Option α :=
  (m.find? (fun kv => kv.1 == k)).map (fun kv => kv.2)

/-- Python dict write access `d[k] = v`: replace in place if the key is
present (keeping its position), append otherwise. -/
def dictInsert (m : List (String × α)) (k : String) (v : α) : List (String × α) :=
  if m.any (fun kv => kv.1 == k) then
    m.map (fun kv => if kv.1 == k then (k, v) else kv)
  else
    m ++ [(k, v)]

/-- Python dict comprehension over a list keyed by `f` (later duplicates
overwrite earlier ones, keys keep first-insertion order). -/
def dictOfItems (f : α → String) (l : List α) : List (String × α) :=
  l.foldl (fun m s => dictInsert m (f s) s) []

/-- Python `str.lower()`, per code point (the repository's keys and
keywords are ASCII, where this matches Python exactly). -/
def pyLower (s : String) : String :=
  String.mk (s.data.map Char.toLower)

/-- Python `str.strip()`: drop whitespace from both ends. -/
def pyStrip (s : String) : String :=
  String.mk (((s.data.dropWhile Char.isWhitespace).reverse.dropWhile
    Char.isWhitespace).reverse)

/-- Python `s[:n]` by code points. -/
def pyTake (n : ℕ) (s : String) : String :=
  String.mk (s.data.take n)

/-- Python substring containment `sub in hay`. -/
def strContains (hay sub : String) : Bool :=
  hay.data.tails.any (fun t => sub.data.isPrefixOf t)

/-! ## Gap-consensus algorithms (`src/agents/text_frameworks.py`,
`GapConsensusFramework`) -/

/-- Models `GapConsensusFramework._gap_key`:
`f"{gap.category}:{gap.description[:30].lower().strip()}"`. -/
def gapKey (g : ScopeGap) : String :=
  g.category ++ ":" ++ pyStrip (pyLower (pyTake 30 g.description))

/-- Number of gaps with a given severity
(`sum(1 for g in new_gaps if g.severity == s)`). -/
def countSeverity (gaps : List ScopeGap) (s : Severity) : ℕ :=
  (gaps.filter (fun g => g.severity = s)).length

/-- Number of gaps flagged as unpaid-work risk. -/
def countUnpaid (gaps : List ScopeGap) : ℕ :=
  (gaps.filter (fun g => g.unpaid_work_risk)).length

/-- A debate-round patch returned by one model in the gap consensus debate
(the JSON `{add_gaps, remove_gaps, severity_changes}`).  `add_gaps` and
`remove_gaps` carry gap ids; `severity_changes` maps gap id to a raw
severity string (entries of the `add_gaps` list that are absent from the
counterpart's result simply select nothing, as in the source). -/
structure GapDebatePatch where
  add_gaps : List String
  remove_gaps : List String
  severity_changes : List (String × String)
deriving DecidableEq, Repr

/-- Models `if new_severity in ("critical", "major", "minor")`: unrecognized
severity strings are ignored. -/
def parseSeverity : String → Option Severity
  | "critical" => some .critical
  | "major" => some .major
  | "minor" => some .minor
  | _ => none

/-- The severity-change step of `GapConsensusFramework._apply_adjustments`:
replace the severity when the id has a change with a recognized value. -/
def applySeverityChange (changes : List (String × String)) (g : ScopeGap) : ScopeGap :=
  match lookupStr changes g.gap_id with
  | none => g
  | some s =>
    match parseSeverity s with
    | none => g
    | some sv => { g with severity := sv }

/-- Models `GapConsensusFramework._apply_adjustments`: key-filter removals, add
items selected from the *other* side's result by id, apply whitelisted
severity changes, then recompute the coverage summary from the mutated
list (the narrative is carried over). -/
def gapApplyAdjustments (result other : GapAnalysis) (adj : GapDebatePatch) :
    GapAnalysis :=
  let afterRemove := result.scope_gaps.filter
    (fun g => !(adj.remove_gaps.contains g.gap_id))
  let added := other.scope_gaps.filter (fun g => adj.add_gaps.contains g.gap_id)
  let newGaps := (afterRemove ++ added).map (applySeverityChange adj.severity_changes)
  { scope_gaps := newGaps
    coverage_summary :=
      { critical_gaps := countSeverity newGaps .critical
        major_gaps := countSeverity newGaps .major
        minor_gaps := countSeverity newGaps .minor
        total_unpaid_risk_items := countUnpaid newGaps
        narrative := result.coverage_summary.narrative } }

/-- Models `GapConsensusFramework._merge_gap` on a group `first :: rest` of gaps
sharing one key: highest-confidence member is the base, list fields are
unioned, confidence is the boosted average capped at 1.  (Python unions via
`set`; the embedding dedups in encounter order, which fixes one of the
set-iteration orders — no claim depends on the order of these lists.) -/
def mergeGap (first : ScopeGap) (rest : List ScopeGap) : ScopeGap :=
  let gaps := first :: rest
  let best := pyMaxBy (fun g => g.confidence) first rest
  let avgConf := ((gaps.map (fun g => g.confidence)).sum) / (gaps.length : ℚ)
  { gap_id := best.gap_id
    category := best.category
    severity := best.severity
    description := best.description
    linked_photos := dedupFirst ((gaps.map (fun g => g.linked_photos)).flatten)
    linked_estimate_lines :=
      dedupFirst ((gaps.map (fun g => g.linked_estimate_lines)).flatten)
    confidence := min 1 (avgConf * (11 / 10))
    unpaid_work_risk := gaps.any (fun g => g.unpaid_work_risk)
    notes := best.notes }

/-- The per-key decision of `GapConsensusFramework._final_merge`: groups of
at least two members are merged, singletons survive only with confidence at
least 0.7. -/
def gapSurvivor (items : List ScopeGap) (k : String) : Option ScopeGap :=
  match items.filter (fun g => gapKey g == k) with
  | [] => none
  | [g] => if (7 : ℚ) / 10 ≤ g.confidence then some g else none
  | g :: g2 :: rest => some (mergeGap g (g2 :: rest))

/-- Models `GapConsensusFramework._final_merge`: group all gaps of both sides by
key (insertion order), keep agreed groups merged and confident singletons,
recompute the coverage summary. -/
def gapFinalMerge (a b : GapAnalysis) : GapAnalysis :=
  let items := a.scope_gaps ++ b.scope_gaps
  let keys := dedupFirst (items.map gapKey)
  let merged := keys.filterMap (gapSurvivor items)
  { scope_gaps := merged
    coverage_summary :=
      { critical_gaps := countSeverity merged .critical
        major_gaps := countSeverity merged .major
        minor_gaps := countSeverity merged .minor
        total_unpaid_risk_items := countUnpaid merged
        narrative := "Consensus analysis identified " ++ toString merged.length
          ++ " gaps (" ++ toString (countSeverity merged .critical)
          ++ " critical, " ++ toString (countSeverity merged .major)
          ++ " major, " ++ toString (countSeverity merged .minor) ++ " minor)" } }

/-- Models `create_fallback_gap_analysis` (`src/agents/text_frameworks.py`). -/
def create_fallback_gap_analysis : GapAnalysis :=
  { scope_gaps := []
    coverage_summary :=
      { critical_gaps := 0
        major_gaps := 0
        minor_gaps := 0
        total_unpaid_risk_items := 0
        narrative := "Fallback gap analysis created due to LLM processing failure" } }

/-- The coverage-summary consistency predicate of the spec: each count in
the summary equals the actual tally over `scope_gaps`. -/
abbrev coverageConsistent (ga : GapAnalysis) : Prop :=
  ga.coverage_summary.critical_gaps = countSeverity ga.scope_gaps .critical ∧
  ga.coverage_summary.major_gaps = countSeverity ga.scope_gaps .major ∧
  ga.coverage_summary.minor_gaps = countSeverity ga.scope_gaps .minor ∧
  ga.coverage_summary.total_unpaid_risk_items = countUnpaid ga.scope_gaps

/-- The `GapAnalysis` branch of `BaseAgent._sanitize_response`
(`src/agents/base.py`): the coverage summary is recomputed from
`scope_gaps` ONLY when the model response omitted it; a summary supplied by
the model is kept verbatim. -/
def sanitizeGapAnalysis (scope_gaps : List ScopeGap)
    (given : Option CoverageSummary) : GapAnalysis :=
  match given with
  | some cs => { scope_gaps := scope_gaps, coverage_summary := cs }
  | none =>
    { scope_gaps := scope_gaps
      coverage_summary :=
        { critical_gaps := countSeverity scope_gaps .critical
          major_gaps := countSeverity scope_gaps .major
          minor_gaps := countSeverity scope_gaps .minor
          total_unpaid_risk_items := countUnpaid scope_gaps
          narrative := "Identified " ++ toString scope_gaps.length ++ " gaps ("
            ++ toString (countSeverity scope_gaps .critical) ++ " critical, "
            ++ toString (countSeverity scope_gaps .major) ++ " major, "
            ++ toString (countSeverity scope_gaps .minor) ++ " minor)." } }

/-! ## Strategist-consensus algorithms (`src/agents/text_frameworks.py`,
`StrategistConsensusFramework`) -/

/-- Models `StrategistConsensusFramework._item_key`:
`f"{item.type}:{item.line_item_description.lower().strip()[:40]}"`. -/
def itemKey (s : SupplementProposal) : String :=
  s.type ++ ":" ++ pyTake 40 (pyStrip (pyLower s.line_item_description))

/-- A debate-round patch in the strategist consensus debate (the JSON
`{add_items, remove_items, price_changes}`).  Of each `add_items` entry the
source only reads the `description` field (entries without one are skipped,
which is the same as not listing them); `remove_items` carries item keys and
`price_changes` maps item keys to new values. -/
structure StrategistDebatePatch where
  add_items : List String
  remove_items : List String
  price_changes : List (String × ℚ)
deriving DecidableEq, Repr

/-- The add-item lookup of `StrategistConsensusFramework._apply_adjustments`:
walk the other side's by-key dict in insertion order and take the first
supplement whose lowercased description contains the first 30 characters of
the lowercased requested description. -/
def strategistAddLookup (otherDict : List (String × SupplementProposal))
    (desc : String) : Option SupplementProposal :=
  (otherDict.find? (fun kv =>
    strContains (pyLower kv.2.line_item_description)
      (pyTake 30 (pyLower desc)))).map
    (fun kv => kv.2)

/-- The price-change step of `StrategistConsensusFramework._apply_adjustments`:
replace value and unit price when the item's key has a change. -/
def applyPriceChange (changes : List (String × ℚ)) (s : SupplementProposal) :
    SupplementProposal :=
  match lookupStr changes (itemKey s) with
  | none => s
  | some v =>
    { s with
      estimated_unit_price := if 0 < s.quantity then v / s.quantity else v
      estimated_value := v }

/-- Models `StrategistConsensusFramework._apply_adjustments`: key-filter removals,
add items selected from the other side's proposals by description match,
apply price changes, then rebuild the margin analysis from the new
supplement total. -/
def strategistApplyAdjustments (result other : SupplementStrategy)
    (adj : StrategistDebatePatch) : SupplementStrategy :=
  let afterRemove := result.supplements.filter
    (fun s => !(adj.remove_items.contains (itemKey s)))
  let otherDict := dictOfItems itemKey other.supplements
  let added := adj.add_items.filterMap (strategistAddLookup otherDict)
  let newSupplements := (afterRemove ++ added).map (applyPriceChange adj.price_changes)
  let newTotal := (newSupplements.map (fun s => s.estimated_value)).sum
  let margin := result.margin_analysis
  { supplements := newSupplements
    margin_analysis :=
      { original_estimate := margin.original_estimate
        total_costs := margin.total_costs
        current_margin := margin.current_margin
        proposed_supplement_total := newTotal
        new_estimate_total := margin.original_estimate + newTotal
        projected_margin :=
          if 0 < margin.original_estimate + newTotal then
            (margin.original_estimate + newTotal - margin.total_costs) /
              (margin.original_estimate + newTotal)
          else 0
        target_margin := margin.target_margin
        margin_gap_remaining := margin.target_margin -
          (if 0 < margin.original_estimate + newTotal then
            (margin.original_estimate + newTotal - margin.total_costs) /
              (margin.original_estimate + newTotal)
          else 0)
        target_achieved :=
          decide (margin.target_margin ≤
            (if 0 < margin.original_estimate + newTotal then
              (margin.original_estimate + newTotal - margin.total_costs) /
                (margin.original_estimate + newTotal)
            else 0)) }
    strategy_notes := result.strategy_notes ++ ["Adjusted via consensus debate"] }

/-- Models `StrategistConsensusFramework._merge_supplement` on a group
`first :: rest` sharing one key: highest-confidence member is the base,
values and confidences are averaged, list fields unioned, confidence
boosted by 1.15 capped at 1. -/
def mergeSupplement (first : SupplementProposal) (rest : List SupplementProposal) :
    SupplementProposal :=
  let supps := first :: rest
  let best := pyMaxBy (fun s => s.confidence) first rest
  let avgValue := ((supps.map (fun s => s.estimated_value)).sum) / (supps.length : ℚ)
  let avgConf := ((supps.map (fun s => s.confidence)).sum) / (supps.length : ℚ)
  { supplement_id := best.supplement_id
    type := best.type
    line_item_description := best.line_item_description
    justification := best.justification
    source := best.source
    linked_gaps := dedupFirst ((supps.map (fun s => s.linked_gaps)).flatten)
    linked_photos := dedupFirst ((supps.map (fun s => s.linked_photos)).flatten)
    code_citation := best.code_citation
    quantity := best.quantity
    unit := best.unit
    estimated_unit_price := if 0 < best.quantity then avgValue / best.quantity else avgValue
    estimated_value := avgValue
    confidence := min 1 (avgConf * (23 / 20))
    pushback_risk := best.pushback_risk
    priority := best.priority }

/-- The per-key decision of `StrategistConsensusFramework._final_merge`:
groups of at least two members are merged, singletons survive only with
confidence at least 0.6. -/
def strategistSurvivor (items : List SupplementProposal) (k : String) :
    Option SupplementProposal :=
  match items.filter (fun s => itemKey s == k) with
  | [] => none
  | [s] => if (3 : ℚ) / 5 ≤ s.confidence then some s else none
  | s :: s2 :: rest => some (mergeSupplement s (s2 :: rest))

/-- Models `StrategistConsensusFramework._final_merge`: group both sides'
supplements by key, keep agreed groups merged and confident singletons,
sort by value descending (Python's stable sort), and rebuild the margin
analysis from averaged financial baselines. -/
def strategistFinalMerge (a b : SupplementStrategy) : SupplementStrategy :=
  let items := a.supplements ++ b.supplements
  let keys := dedupFirst (items.map itemKey)
  let survivors := keys.filterMap (strategistSurvivor items)
  let merged := survivors.mergeSort
    (fun x y => y.estimated_value ≤ x.estimated_value)
  let totalValue := (merged.map (fun s => s.estimated_value)).sum
  let avgOriginal := (a.margin_analysis.original_estimate +
    b.margin_analysis.original_estimate) / 2
  let avgCosts := (a.margin_analysis.total_costs + b.margin_analysis.total_costs) / 2
  let target := a.margin_analysis.target_margin
  let newTotal := avgOriginal + totalValue
  let projected := if 0 < newTotal then (newTotal - avgCosts) / newTotal else 0
  { supplements := merged
    margin_analysis :=
      { original_estimate := avgOriginal
        total_costs := avgCosts
        current_margin := a.margin_analysis.current_margin
        proposed_supplement_total := totalValue
        new_estimate_total := newTotal
        projected_margin := projected
        target_margin := target
        margin_gap_remaining := target - projected
        target_achieved := decide (target ≤ projected) }
    strategy_notes :=
      ["Consensus analysis from " ++ toString a.supplements.length ++ " + "
        ++ toString b.supplements.length ++ " proposals",
       "Final: " ++ toString merged.length ++ " supplements"] }

/-- The context fields read by `create_fallback_supplement_strategy`
(`context["estimate_interpretation"]["financials"]` and
`context["target_margin"]`; the `.get(..., default)` fallbacks of the
source are the caller's defaults, already resolved into these fields). -/
structure FallbackStrategyContext where
  original_estimate_total : ℚ
  actual_costs_total : ℚ
  target_margin : ℚ
deriving DecidableEq, Repr

/-- Models `create_fallback_supplement_strategy` (`src/agents/text_frameworks.py`):
a minimal valid strategy with no supplements and a margin analysis derived
from the estimate's financials. -/
def create_fallback_supplement_strategy (ctx : FallbackStrategyContext) :
    SupplementStrategy :=
  let original_estimate := ctx.original_estimate_total
  let total_costs := ctx.actual_costs_total
  let current_margin :=
    if 0 < original_estimate then (original_estimate - total_costs) / original_estimate
    else 0
  let target_margin := ctx.target_margin
  { supplements := []
    margin_analysis :=
      { original_estimate := original_estimate
        total_costs := total_costs
        current_margin := current_margin
        proposed_supplement_total := 0
        new_estimate_total := original_estimate
        projected_margin := current_margin
        target_margin := target_margin
        margin_gap_remaining := target_margin - current_margin
        target_achieved := decide (target_margin ≤ current_margin) }
    strategy_notes := ["Fallback strategy created due to LLM processing failure"] }

/-- The margin-formula consistency predicate of the spec:
`new_estimate_total = original_estimate + proposed_supplement_total` and
`target_achieved = (projected_margin >= target_margin)`.  Over `ℚ` the
equalities are exact, so the spec's floating-point tolerance is not
needed. -/
abbrev marginConsistent (m : MarginAnalysis) : Prop :=
  m.new_estimate_total = m.original_estimate + m.proposed_supplement_total ∧
  m.target_achieved = decide (m.target_margin ≤ m.projected_margin)

/-! ## Vision data model and merge algorithms
(`src/schemas/evidence.py`, `src/agents/vision_frameworks.py`,
`src/agents/vision_aggregator.py`) -/

/-- Estimated area of a component, from `src/schemas/evidence.py`
(`EstimatedArea`; unit and method are `Literal` strings). -/
structure EstimatedArea where
  value : ℚ
  unit : String
  confidence : ℚ
  method : String
deriving DecidableEq, Repr

/-- Normalized bounding box, from `src/schemas/evidence.py` (`BoundingBox`). -/
structure BoundingBox where
  x : ℚ
  y : ℚ
  width : ℚ
  height : ℚ
deriving DecidableEq, Repr

/-- A detected roofing component, from `src/schemas/evidence.py`
(`Component`); type and condition are `Literal` strings in the source and
only ever compared or copied by the merge code. -/
structure Component where
  component_type : String
  location_hint : String
  condition : String
  description : String
  estimated_area : Option EstimatedArea
  severity_score : ℚ
  detection_confidence : ℚ
  bbox : Option BoundingBox
deriving DecidableEq, Repr

/-- A global observation, from `src/schemas/evidence.py`
(`GlobalObservation`). -/
structure GlobalObservation where
  type : String
  description : String
  confidence : ℚ
deriving DecidableEq, Repr

/-- Per-photo vision evidence, from `src/schemas/evidence.py`
(`VisionEvidence`). -/
structure VisionEvidence where
  photo_id : String
  components : List Component
  global_observations : List GlobalObservation
deriving DecidableEq, Repr

/-- Models `ParallelAggregateFramework._find_match`
(`src/agents/vision_frameworks.py`): scan the candidates in order, skip
used indices, and return the first index whose component type equals the
target's.  No location information is consulted. -/
def findMatchAux (target : Component) (used : List ℕ) :
    List Component → ℕ → Option ℕ
  | [], _ => none
  | c :: rest, i =>
    if !(used.contains i) && (target.component_type == c.component_type) then some i
    else findMatchAux target used rest (i + 1)

/-- Entry point of `ParallelAggregateFramework._find_match`. -/
def findMatch (target : Component) (candidates : List Component)
    (used : List ℕ) : Option ℕ :=
  findMatchAux target used candidates 0

/-- The compass-direction keyword list of
`VisionAggregator._locations_similar`. -/
def compassDirections : List String :=
  ["north", "south", "east", "west", "front", "back", "left", "right"]

/-- The roof-feature keyword list of `VisionAggregator._locations_similar`. -/
def roofFeatures : List String :=
  ["ridge", "valley", "eave", "chimney", "skylight", "vent", "edge"]

/-- Models `VisionAggregator._locations_similar` (`src/agents/vision_aggregator.py`):
for each of the two keyword axes, collect the keywords occurring as
substrings of the lowercased hints; an axis agrees when the two keyword
sets intersect or are both empty, and the hints are similar when both axes
agree. -/
def locationsSimilar (loc1 loc2 : String) : Bool :=
  let l1 := pyLower loc1
  let l2 := pyLower loc2
  let d1 := compassDirections.filter (fun d => strContains l1 d)
  let d2 := compassDirections.filter (fun d => strContains l2 d)
  let f1 := roofFeatures.filter (fun f => strContains l1 f)
  let f2 := roofFeatures.filter (fun f => strContains l2 f)
  let directionMatch := (d1.any (fun d => d2.contains d)) || (d1.isEmpty && d2.isEmpty)
  let featureMatch := (f1.any (fun f => f2.contains f)) || (f1.isEmpty && f2.isEmpty)
  directionMatch && featureMatch

/-- Models `VisionAggregator._find_matching_component`: like the framework's
`_find_match` but a candidate additionally needs similar location hints.
(When a candidate has the right type but a dissimilar location the Python
loop continues scanning, which the conjunctive test reproduces.) -/
def findMatchingComponentAux (target : Component) (used : List ℕ) :
    List Component → ℕ → Option ℕ
  | [], _ => none
  | c :: rest, i =>
    if !(used.contains i) && (target.component_type == c.component_type)
        && locationsSimilar target.location_hint c.location_hint then some i
    else findMatchingComponentAux target used rest (i + 1)

/-- Entry point of `VisionAggregator._find_matching_component`. -/
def findMatchingComponent (target : Component) (candidates : List Component)
    (used : List ℕ) : Option ℕ :=
  findMatchingComponentAux target used candidates 0

/-- The per-type decision of `ConsensusDebateFramework._final_merge`
(`src/agents/vision_frameworks.py`): a singleton group is included as-is —
with NO confidence threshold — and larger groups are merged with averaged
severity, the longest description as base, and max confidence boosted
by 1.05 capped at 1. -/
def visionSurvivor (comps : List Component) (k : String) : Option Component :=
  match comps.filter (fun c => c.component_type == k) with
  | [] => none
  | [c] => some c
  | c :: c2 :: rest =>
    let group := c :: c2 :: rest
    let avgSeverity := ((group.map (fun x => x.severity_score)).sum) / (group.length : ℚ)
    let maxConfidence :=
      (group.map (fun x => x.detection_confidence)).foldl max c.detection_confidence
    let best := pyMaxBy (fun x => (x.description.length : ℚ)) c (c2 :: rest)
    some
      { component_type := k
        location_hint := best.location_hint
        condition := best.condition
        description := best.description
        estimated_area := best.estimated_area
        severity_score := avgSeverity
        detection_confidence := min 1 (maxConfidence * (21 / 20))
        bbox := best.bbox }

/-- Observation merge shared by the vision merges: keep the first
observation of each type in concatenation order. -/
def mergeObservationsByType (obs : List GlobalObservation) :
    List GlobalObservation :=
  (dedupFirst (obs.map (fun o => o.type))).filterMap
    (fun t => obs.find? (fun o => o.type == t))

/-- Models `ConsensusDebateFramework._final_merge`: group the components of both
sides by component type (insertion order) and merge each group with
`visionSurvivor`; observations are deduplicated by type. -/
def visionFinalMerge (photo_id : String) (a b : VisionEvidence) : VisionEvidence :=
  let comps := a.components ++ b.components
  let keys := dedupFirst (comps.map (fun c => c.component_type))
  { photo_id := photo_id
    components := keys.filterMap (visionSurvivor comps)
    global_observations :=
      mergeObservationsByType (a.global_observations ++ b.global_observations) }

/-! ## Framework factories (`get_framework` in
`src/agents/vision_frameworks.py`; `get_estimate_framework`,
`get_gap_framework`, `get_strategist_framework` in
`src/agents/text_frameworks.py`).

The factories are modelled as `Except`-valued: `.error` is the
`ValueError` raised at construction, `.ok` the kind of framework object
constructed.  The secondary model client is reduced to the one bit the
control flow reads: whether it is configured (`secondary_client is None`). -/

inductive VisionFrameworkKind
  | single_model
  | parallel_aggregate
  | consensus_debate
  | ensemble_voting
deriving DecidableEq, Repr

inductive TextFrameworkKind
  | single
  | ensemble
  | consensus
deriving DecidableEq, Repr

/-- Models `get_framework` (`src/agents/vision_frameworks.py`). -/
def get_vision_framework (name : String) (secondaryConfigured : Bool) :
    Except String VisionFrameworkKind :=
  if name == "single_model" || !secondaryConfigured then .ok .single_model
  else if name == "parallel_aggregate" then .ok .parallel_aggregate
  else if name == "consensus_debate" then .ok .consensus_debate
  else if name == "ensemble_voting" && secondaryConfigured then .ok .ensemble_voting
  else .error ("Unknown framework: " ++ name)

/-- Models `get_estimate_framework` (`src/agents/text_frameworks.py`). -/
def get_estimate_framework (name : String) (secondaryConfigured : Bool) :
    Except String TextFrameworkKind :=
  if name == "single" || !secondaryConfigured then .ok .single
  else if name == "ensemble" then .ok .ensemble
  else .error ("Unknown estimate framework: " ++ name)

/-- Models `get_gap_framework` (`src/agents/text_frameworks.py`). -/
def get_gap_framework (name : String) (secondaryConfigured : Bool) :
    Except String TextFrameworkKind :=
  if name == "single" || !secondaryConfigured then .ok .single
  else if name == "consensus" then .ok .consensus
  else .error ("Unknown gap framework: " ++ name)

/-- Models `get_strategist_framework` (`src/agents/text_frameworks.py`). -/
def get_strategist_framework (name : String) (secondaryConfigured : Bool) :
    Except String TextFrameworkKind :=
  if name == "single" || !secondaryConfigured then .ok .single
  else if name == "consensus" then .ok .consensus
  else .error ("Unknown strategist framework: " ++ name)

/-! ## Estimate data model (`src/schemas/estimate.py`) — the parts the
review loop's orchestration context can hold. -/

/-- Actual costs, from `src/schemas/estimate.py` (`ActualCosts`). -/
structure ActualCosts where
  materials : ℚ
  labor : ℚ
  other : ℚ
  total : ℚ
deriving DecidableEq, Repr

/-- Financials, from `src/schemas/estimate.py` (`Financials`). -/
structure Financials where
  original_estimate_total : ℚ
  actual_costs : ActualCosts
  current_margin : ℚ
  target_margin : ℚ
  margin_gap : ℚ
deriving DecidableEq, Repr

/-- A line item, from `src/schemas/estimate.py` (`LineItem`); the scope
category is a `Literal` string. -/
structure LineItem where
  line_id : String
  description : String
  scope_category : String
  quantity : ℚ
  unit : String
  unit_price : ℚ
  total : ℚ
  is_roofing_core : Bool
  is_code_item : Bool
  is_oversight_risk : Bool
  raw_line_text : Option String
deriving DecidableEq, Repr

/-- Estimate summary, from `src/schemas/estimate.py` (`EstimateSummary`). -/
structure EstimateSummary where
  carrier : String
  claim_number : String
  total_estimate_amount : ℚ
  roof_related_total : ℚ
  overhead_and_profit_included : Bool
  depreciation_amount : ℚ
deriving DecidableEq, Repr

/-- From `src/schemas/estimate.py` (`EstimateInterpretation`). -/
structure EstimateInterpretation where
  estimate_summary : EstimateSummary
  line_items : List LineItem
  financials : Financials
  parsing_notes : List String
  parsing_confidence : ℚ
deriving DecidableEq, Repr

/-! ## Review data model (`src/schemas/review.py`) -/

/-- Human-flag severities, from `src/schemas/review.py` (`HumanFlag`'s
`Literal`). -/
inductive FlagSeverity
  | critical
  | warning
  | info
deriving DecidableEq, Repr

/-- A human flag, from `src/schemas/review.py` (`HumanFlag`). -/
structure HumanFlag where
  flag_id : String
  severity : FlagSeverity
  reason : String
  context : String
  recommended_action : String
deriving DecidableEq, Repr

/-- A rerun request, from `src/schemas/review.py` (`RerunRequest`).  The
target agent and priority are `Literal` strings in the schema; the review
loop dispatches on their raw string values, so they are kept as strings. -/
structure RerunRequest where
  request_id : String
  target_agent : String
  priority : String
  reason : String
  instructions : String
  affected_items : List String
  expects_change_to : List String
deriving DecidableEq, Repr

/-- The value carried by an adjustment's `suggested_value`.  In the source
this is `Any` and `setattr` is dynamically typed; the embedding carries the
value kinds the typed targets can hold.  (A kind-mismatched patch — e.g. a
string written into a numeric field — would produce a type-confused Python
object outside the typed universe; no claim exercises that corner and the
setters below leave the object unchanged there.) -/
inductive AdjValue
  | num (q : ℚ)
  | str (s : String)
  | sev (v : Severity)
  | flag (b : Bool)
deriving DecidableEq, Repr

/-- An adjustment, from `src/schemas/review.py` (`Adjustment`).  NOTE: the
schema's `target_type` is the `Literal` {"supplement", "gap", "line_item",
"evidence"} — it does NOT include "margin_analysis", although the review
prompt advertises it and the review loop has a handler for it; the
embedding keeps the raw string the loop dispatches on. -/
structure Adjustment where
  request_id : String
  target_type : String
  target_id : String
  field : String
  current_value : AdjValue
  suggested_value : AdjValue
  reason : String
deriving DecidableEq, Repr

/-- Carrier risk assessment, from `src/schemas/review.py`
(`CarrierRiskAssessment`). -/
structure CarrierRiskAssessment where
  overall_risk : String
  high_risk_items : List String
  notes : Option String
deriving DecidableEq, Repr

/-- Review result, from `src/schemas/review.py` (`ReviewResult`).  The
schema defines exactly these fields; in particular it has NO
`margin_assessment` field (pydantic silently drops that keyword where the
review loop passes it). -/
structure ReviewResult where
  approved : Bool
  overall_assessment : String
  reruns_requested : List RerunRequest
  adjustments_requested : List Adjustment
  human_flags : List HumanFlag
  carrier_risk_assessment : CarrierRiskAssessment
  ready_for_delivery : Bool
deriving DecidableEq, Repr

/-- Modelled from the spec: the `MarginAssessment` component of §3's
ReviewResult ("MarginAssessment" with target/projected/acceptable fields).
The class is missing from the snapshot's `src/schemas/review.py` although
`src/orchestrator/review_loop.py` imports and constructs it; its shape is
taken from the spec and from the construction site's keyword arguments. -/
structure MarginAssessment where
  target : ℚ
  projected : ℚ
  acceptable : Bool
  notes : String
deriving DecidableEq, Repr

/-! ## Review loop (`src/orchestrator/review_loop.py`) -/

/-- The data fields of `SupplementProposal`; `hasattr` on a target object is
modelled as membership of the field name here (restricted to the schema's
data fields — the claims only concern those). -/
def suppFieldNames : List String :=
  ["supplement_id", "type", "line_item_description", "justification", "source",
   "linked_gaps", "linked_photos", "code_citation", "quantity", "unit",
   "estimated_unit_price", "estimated_value", "confidence", "pushback_risk",
   "priority"]

/-- The data fields of `ScopeGap`. -/
def gapFieldNames : List String :=
  ["gap_id", "category", "severity", "description", "linked_photos",
   "linked_estimate_lines", "confidence", "unpaid_work_risk", "notes"]

/-- The data fields of `MarginAnalysis`. -/
def marginFieldNames : List String :=
  ["original_estimate", "total_costs", "current_margin",
   "proposed_supplement_total", "new_estimate_total", "projected_margin",
   "target_margin", "margin_gap_remaining", "target_achieved"]

/-- Models `setattr` on a `SupplementProposal` for a kind-conforming value
(`hasattr` is checked separately by the caller on the name alone, exactly
as in the source). -/
def setSuppField (s : SupplementProposal) (f : String) (v : AdjValue) :
    SupplementProposal :=
  match f, v with
  | "supplement_id", .str x => { s with supplement_id := x }
  | "type", .str x => { s with type := x }
  | "line_item_description", .str x => { s with line_item_description := x }
  | "justification", .str x => { s with justification := x }
  | "source", .str x => { s with source := x }
  | "code_citation", .str x => { s with code_citation := some x }
  | "quantity", .num q => { s with quantity := q }
  | "unit", .str x => { s with unit := x }
  | "estimated_unit_price", .num q => { s with estimated_unit_price := q }
  | "estimated_value", .num q => { s with estimated_value := q }
  | "confidence", .num q => { s with confidence := q }
  | "pushback_risk", .str x => { s with pushback_risk := x }
  | "priority", .str x => { s with priority := x }
  | _, _ => s

/-- Models `setattr` on a `ScopeGap`. -/
def setGapField (g : ScopeGap) (f : String) (v : AdjValue) : ScopeGap :=
  match f, v with
  | "gap_id", .str x => { g with gap_id := x }
  | "category", .str x => { g with category := x }
  | "severity", .sev x => { g with severity := x }
  | "description", .str x => { g with description := x }
  | "confidence", .num q => { g with confidence := q }
  | "unpaid_work_risk", .flag b => { g with unpaid_work_risk := b }
  | "notes", .str x => { g with notes := some x }
  | _, _ => g

/-- Models `setattr` on a `MarginAnalysis`. -/
def setMarginField (m : MarginAnalysis) (f : String) (v : AdjValue) :
    MarginAnalysis :=
  match f, v with
  | "original_estimate", .num q => { m with original_estimate := q }
  | "total_costs", .num q => { m with total_costs := q }
  | "current_margin", .num q => { m with current_margin := q }
  | "proposed_supplement_total", .num q => { m with proposed_supplement_total := q }
  | "new_estimate_total", .num q => { m with new_estimate_total := q }
  | "projected_margin", .num q => { m with projected_margin := q }
  | "target_margin", .num q => { m with target_margin := q }
  | "margin_gap_remaining", .num q => { m with margin_gap_remaining := q }
  | "target_achieved", .flag b => { m with target_achieved := b }
  | _, _ => m

/-- The data fields of `LineItem` (`src/schemas/estimate.py`) — the review
loop never consults them, which is what the line-item claim is about. -/
def lineItemFieldNames : List String :=
  ["line_id", "description", "scope_category", "quantity", "unit",
   "unit_price", "total", "is_roofing_core", "is_code_item",
   "is_oversight_risk", "raw_line_text"]

/-- The slice of `OrchestratorContext` (`src/orchestrator/context.py`) the
review loop's adjustments can reach. -/
structure LoopCtx where
  estimate_interpretation : Option EstimateInterpretation
  gap_analysis : Option GapAnalysis
  supplement_strategy : Option SupplementStrategy
deriving DecidableEq, Repr

/-- The scan of `ReviewLoop._apply_supplement_adjustment`: walk the
supplements in order; at the first one whose id matches AND that has the
field, set the field and stop; if an id matches but the field is absent the
scan continues (exactly the source's loop shape). -/
def applyToFirstSupp (adj : Adjustment) :
    List SupplementProposal → Option (List SupplementProposal)
  | [] => none
  | s :: rest =>
    if s.supplement_id == adj.target_id && suppFieldNames.contains adj.field then
      some (setSuppField s adj.field adj.suggested_value :: rest)
    else
      (applyToFirstSupp adj rest).map (fun l => s :: l)

/-- The analogous scan of `ReviewLoop._apply_gap_adjustment`. -/
def applyToFirstGap (adj : Adjustment) :
    List ScopeGap → Option (List ScopeGap)
  | [] => none
  | g :: rest =>
    if g.gap_id == adj.target_id && gapFieldNames.contains adj.field then
      some (setGapField g adj.field adj.suggested_value :: rest)
    else
      (applyToFirstGap adj rest).map (fun l => g :: l)

/-- Models `ReviewLoop._apply_supplement_adjustment`. -/
def applySupplementAdjustment (ctx : LoopCtx) (adj : Adjustment) :
    LoopCtx × Bool :=
  match ctx.supplement_strategy with
  | none => (ctx, false)
  | some strategy =>
    match applyToFirstSupp adj strategy.supplements with
    | none => (ctx, false)
    | some l =>
      ({ ctx with supplement_strategy := some { strategy with supplements := l } },
        true)

/-- Models `ReviewLoop._apply_gap_adjustment`.  The named field of the matched gap
is patched in place; the coverage summary is NOT recomputed. -/
def applyGapAdjustment (ctx : LoopCtx) (adj : Adjustment) : LoopCtx × Bool :=
  match ctx.gap_analysis with
  | none => (ctx, false)
  | some ga =>
    match applyToFirstGap adj ga.scope_gaps with
    | none => (ctx, false)
    | some l =>
      ({ ctx with gap_analysis := some { ga with scope_gaps := l } }, true)

/-- Models `ReviewLoop._apply_margin_adjustment`: patch the named field of the
strategy's (single) margin analysis; the other margin fields are NOT
recomputed. -/
def applyMarginAdjustment (ctx : LoopCtx) (adj : Adjustment) : LoopCtx × Bool :=
  match ctx.supplement_strategy with
  | none => (ctx, false)
  | some strategy =>
    if marginFieldNames.contains adj.field then
      ({ ctx with
          supplement_strategy := some
            { strategy with
              margin_analysis :=
                setMarginField strategy.margin_analysis adj.field
                  adj.suggested_value } },
        true)
    else (ctx, false)

/-- Models `ReviewLoop._apply_adjustment`: dispatch on the target-type string;
"line_item" and "evidence" targets fall into the unknown-target branch,
which only logs a warning and reports no change. -/
def applyAdjustment (ctx : LoopCtx) (adj : Adjustment) : LoopCtx × Bool :=
  if adj.target_type == "supplement" then applySupplementAdjustment ctx adj
  else if adj.target_type == "gap" then applyGapAdjustment ctx adj
  else if adj.target_type == "margin_analysis" then applyMarginAdjustment ctx adj
  else (ctx, false)

/-- Models `ReviewLoop._priority_value`. -/
def priorityValue (p : String) : ℕ :=
  if p == "critical" then 0
  else if p == "high" then 1
  else if p == "medium" then 2
  else if p == "low" then 3
  else 4

/-- Models `Orchestrator.MAX_RERUNS_PER_AGENT` (`src/orchestrator/core.py`). -/
def MAX_RERUNS_PER_AGENT : ℕ := 1

/-- Models `Orchestrator.MAX_REVIEW_CYCLES` (`src/orchestrator/core.py`). -/
def MAX_REVIEW_CYCLES : ℕ := 2

/-- The oracles standing for the LLM-backed stage calls the review loop can
trigger: the review agent's verdict per cycle and the stage results a rerun
writes back into the context (frameworks never raise on these paths — their
fallbacks absorb failures — so total functions are faithful). -/
structure LoopOracles where
  reviews : ℕ → ReviewResult
  gapResults : ℕ → GapAnalysis
  strategistResults : ℕ → SupplementStrategy
  estimateResults : ℕ → EstimateInterpretation

/-- Review-loop state: the context slice, the per-agent rerun counts
(`Orchestrator.agent_rerun_counts`, a dict read only through
`.get(name, 0)`, modelled as a total function), the cycle counter, a tick
indexing successive stage-oracle calls, the recorded review history — and
`executedReruns`, a ghost log appending the target agent of every rerun
that is actually executed (the observable the rerun-budget claim counts). -/
structure LoopState where
  ctx : LoopCtx
  rerunCounts : String → ℕ
  executedReruns : List String
  cycle : ℕ
  tick : ℕ
  review_results : List ReviewResult

/-- Models `ReviewLoop._can_rerun`. -/
def canRerun (st : LoopState) (agent : String) : Bool :=
  st.rerunCounts agent < MAX_RERUNS_PER_AGENT

/-- Models `ReviewLoop._execute_rerun`: increment the agent's rerun count, then
dispatch on the agent name; downstream stages cascade (gap reruns re-run
the strategist, estimate reruns cascade through gap and strategist, vision
reruns skip vision itself but cascade).  Unknown agent names fall through
all branches with the count already incremented, as in the source. -/
def executeRerun (oracles : LoopOracles) (st : LoopState) (rerun : RerunRequest) :
    LoopState :=
  let agent := rerun.target_agent
  let st1 : LoopState :=
    { st with
      rerunCounts := fun a => if a = agent then st.rerunCounts a + 1 else st.rerunCounts a
      executedReruns := st.executedReruns ++ [agent] }
  if agent == "supplement_agent" then
    { st1 with
      ctx := { st1.ctx with
        supplement_strategy := some (oracles.strategistResults st1.tick) }
      tick := st1.tick + 1 }
  else if agent == "gap_agent" then
    { st1 with
      ctx := { st1.ctx with
        gap_analysis := some (oracles.gapResults st1.tick)
        supplement_strategy := some (oracles.strategistResults (st1.tick + 1)) }
      tick := st1.tick + 2 }
  else if agent == "vision_agent" then
    { st1 with
      ctx := { st1.ctx with
        gap_analysis := some (oracles.gapResults st1.tick)
        supplement_strategy := some (oracles.strategistResults (st1.tick + 1)) }
      tick := st1.tick + 2 }
  else if agent == "estimate_agent" then
    { st1 with
      ctx := { st1.ctx with
        estimate_interpretation := some (oracles.estimateResults st1.tick)
        gap_analysis := some (oracles.gapResults (st1.tick + 1))
        supplement_strategy := some (oracles.strategistResults (st1.tick + 2)) }
      tick := st1.tick + 3 }
  else st1

/-- Models `ReviewLoop._has_actionable_feedback`. -/
def hasActionableFeedback (review : ReviewResult) : Bool :=
  !review.reruns_requested.isEmpty || !review.adjustments_requested.isEmpty

/-- Models `ReviewLoop._process_feedback`: apply every adjustment (tracking whether
any applied), then walk the rerun requests in priority order (Python's
`sorted` is a stable sort) executing each one whose agent still has rerun
budget. -/
def processFeedback (oracles : LoopOracles) (st : LoopState)
    (review : ReviewResult) : LoopState × Bool :=
  let afterAdj := review.adjustments_requested.foldl
    (fun (acc : LoopState × Bool) adj =>
      let r := applyAdjustment acc.1.ctx adj
      ({ acc.1 with ctx := r.1 }, acc.2 || r.2))
    (st, false)
  let sortedReruns := review.reruns_requested.mergeSort
    (fun x y => priorityValue x.priority ≤ priorityValue y.priority)
  sortedReruns.foldl
    (fun (acc : LoopState × Bool) rr =>
      if canRerun acc.1 rr.target_agent then (executeRerun oracles acc.1 rr, true)
      else acc)
    afterAdj

/-- Models `ReviewLoop._create_max_cycles_result` — the review result synthesized
when the cycle budget is exhausted.  (The source also constructs a
`MarginAssessment` keyword, which the `ReviewResult` schema does not define
and pydantic therefore drops; the schema-visible fields are these.) -/
def maxCyclesResult : ReviewResult :=
  { approved := false
    overall_assessment := "Maximum review cycles exceeded without resolution"
    reruns_requested := []
    adjustments_requested := []
    human_flags :=
      [{ flag_id := "MAX_CYCLES"
         severity := .critical
         reason := "Review loop exhausted without approval"
         context := "System reached maximum review iterations"
         recommended_action := "Manual review of supplement package required" }]
    carrier_risk_assessment :=
      { overall_risk := "high"
        high_risk_items := []
        notes := some "Unable to assess - review loop exhausted" }
    ready_for_delivery := false }

/-- The `MarginAssessment` value `_create_max_cycles_result` builds (and
pydantic drops, since the schema has no such field); kept to document the
construction site. -/
def maxCyclesMarginAssessment (minimumMargin : ℚ) : MarginAssessment :=
  { target := minimumMargin
    projected := 0
    acceptable := false
    notes := "Unable to assess - review loop exhausted" }

/-- Models `ReviewLoop.execute`: up to `fuel` cycles (the orchestrator passes
`MAX_REVIEW_CYCLES`); each cycle asks the review oracle, records the
result, returns on approval / critical human flag / no actionable
feedback, otherwise applies feedback and continues only when a change was
made.  Exhausting the budget yields the synthetic max-cycles result. -/
def loopExecute (oracles : LoopOracles) : ℕ → LoopState → LoopState × ReviewResult
  | 0, st => (st, maxCyclesResult)
  | fuel + 1, st =>
    let review := oracles.reviews st.cycle
    let st1 : LoopState :=
      { st with
        cycle := st.cycle + 1
        review_results := st.review_results ++ [review] }
    if review.approved && review.ready_for_delivery then (st1, review)
    else if review.human_flags.any (fun f => f.severity = FlagSeverity.critical) then
      (st1, review)
    else if !hasActionableFeedback review then (st1, review)
    else
      let r := processFeedback oracles st1 review
      if r.2 then loopExecute oracles fuel r.1 else (r.1, review)

/-- The review loop's starting state (`Orchestrator.__init__` creates empty
rerun counts; the context already holds the extraction/gap/strategy
results). -/
def initLoopState (ctx : LoopCtx) : LoopState :=
  { ctx := ctx
    rerunCounts := fun _ => 0
    executedReruns := []
    cycle := 0
    tick := 0
    review_results := [] }

/-! ## Orchestrator result logic and LLM-call counting
(`src/orchestrator/core.py`) -/

/-- Models `JobStatus` (`src/orchestrator/core.py`). -/
inductive JobStatus
  | queued
  | processing
  | completed
  | escalated
  | failed
deriving DecidableEq, Repr

/-- The `partial_results` dict built by
`Orchestrator._create_escalation_result`. -/
structure PartialResults where
  supplements : Option SupplementStrategy
  gaps : Option GapAnalysis
deriving DecidableEq, Repr

/-- Models `OrchestratorResult` (`src/orchestrator/core.py`).  `report_pdf` bytes
and wall-clock `processing_time_seconds` are outside the shallow embedding
(I/O and real time) and not read by any claim. -/
structure OrchestratorResult where
  success : Bool
  job_id : String
  status : JobStatus
  report_html : Option String
  supplements : Option SupplementStrategy
  escalation_reason : Option String
  human_flags : Option (List HumanFlag)
  partial_results : Option PartialResults
  llm_calls : ℕ
  review_cycles : ℕ
deriving DecidableEq, Repr

/-- The non-exception tail of `Orchestrator.run` combined with
`_generate_report` (lines 204-207 and 448-458 of core.py): after the review
loop, a report is generated and a COMPLETED result returned; when the final
review is not approved-and-ready, the review's human flags are attached to
that completed result.  No branch of this path builds an escalated result
or attaches partial results. -/
def runAfterReview (job_id : String) (ctx : LoopCtx) (review : ReviewResult)
    (reportHtml : String) (llmCalls reviewCycles : ℕ) : OrchestratorResult :=
  let base : OrchestratorResult :=
    { success := true
      job_id := job_id
      status := .completed
      report_html := some reportHtml
      supplements := ctx.supplement_strategy
      escalation_reason := none
      human_flags := none
      partial_results := none
      llm_calls := llmCalls
      review_cycles := reviewCycles }
  if !review.approved || !review.ready_for_delivery then
    { base with human_flags := some review.human_flags }
  else base

/-- Models `Orchestrator._create_escalation_result` — defined in core.py but never
invoked by `run()` (dead code); modelled for contrast with the result
`run()` actually returns. -/
def createEscalationResult (job_id : String) (ctx : LoopCtx)
    (review : ReviewResult) (llmCalls reviewCycles : ℕ) : OrchestratorResult :=
  let partialDict : PartialResults :=
    { supplements := ctx.supplement_strategy, gaps := ctx.gap_analysis }
  { success := false
    job_id := job_id
    status := .escalated
    report_html := none
    supplements := none
    escalation_reason := some review.overall_assessment
    human_flags := some review.human_flags
    partial_results :=
      if ctx.supplement_strategy.isNone && ctx.gap_analysis.isNone then none
      else some partialDict
    llm_calls := llmCalls
    review_cycles := reviewCycles }

/-- The exception path of `Orchestrator.run` (lines 209-218): a FAILED
result carrying the exception message and the LLM calls accumulated so
far; no partial results, no human flags. -/
def runFailureResult (job_id : String) (message : String) (llmCalls : ℕ) :
    OrchestratorResult :=
  { success := false
    job_id := job_id
    status := .failed
    report_html := none
    supplements := none
    escalation_reason := some message
    human_flags := none
    partial_results := none
    llm_calls := llmCalls
    review_cycles := 0 }

/-- Models `Orchestrator.MAX_TOTAL_LLM_CALLS` (`src/orchestrator/core.py`) — a
declared budget constant; no operation in the repository reads it. -/
def MAX_TOTAL_LLM_CALLS : ℕ := 12

/-- Models `Orchestrator.MAX_RETRIES` (`src/orchestrator/core.py`). -/
def MAX_RETRIES : ℕ := 3

/-- Models `Orchestrator._get_framework_llm_calls`: the static per-framework-name
charge added to the counter before each vision framework invocation. -/
def visionFrameworkLLMCalls (name : String) : ℕ :=
  if name == "single_model" then 1
  else if name == "parallel_aggregate" || name == "consensus_debate" then 2
  else if name == "ensemble_voting" then 2
  else 1

/-- Models `Orchestrator._get_gap_framework_llm_calls`. -/
def gapFrameworkLLMCalls (name : String) : ℕ :=
  if name == "single" then 1
  else if name == "consensus" then 3
  else 1

/-- Models `Orchestrator._run_vision_with_retry` restricted to its counter effect:
attempt `fuel` more times starting at attempt index `i`; each attempt runs
`_run_vision_single`, which increments the counter by the static charge
BEFORE invoking the framework; `outcomes j = true` means attempt `j`'s
framework call succeeds.  Returns the final counter and whether any attempt
succeeded (failure of all attempts re-raises, and the orchestrator then
drops the photo from `vision_evidence`). -/
def runVisionWithRetryAux (charge : ℕ) (outcomes : ℕ → Bool) :
    ℕ → ℕ → ℕ → ℕ × Bool
  | 0, _, counter => (counter, false)
  | fuel + 1, i, counter =>
    let counter1 := counter + charge
    if outcomes i then (counter1, true)
    else runVisionWithRetryAux charge outcomes fuel (i + 1) counter1

/-- Models `Orchestrator._run_vision_with_retry` (counter effect), entry point:
`MAX_RETRIES` attempts from attempt 0. -/
def runVisionWithRetry (charge : ℕ) (outcomes : ℕ → Bool) (counter : ℕ) :
    ℕ × Bool :=
  runVisionWithRetryAux charge outcomes MAX_RETRIES 0 counter

/-- The context fields read by `create_fallback_estimate`
(`src/agents/text_frameworks.py`); the `.get(..., default)` defaults are
resolved by the caller into these fields. -/
structure FallbackEstimateContext where
  materials_cost : ℚ
  labor_cost : ℚ
  other_costs : ℚ
  carrier : String
  claim_number : String
  target_margin : ℚ
deriving DecidableEq, Repr

/-- Models `create_fallback_estimate` (`src/agents/text_frameworks.py`). -/
def create_fallback_estimate (ctx : FallbackEstimateContext) :
    EstimateInterpretation :=
  let total_costs := ctx.materials_cost + ctx.labor_cost + ctx.other_costs
  { estimate_summary :=
      { carrier := ctx.carrier
        claim_number := ctx.claim_number
        total_estimate_amount := 0
        roof_related_total := 0
        overhead_and_profit_included := false
        depreciation_amount := 0 }
    line_items := []
    financials :=
      { original_estimate_total := 0
        actual_costs :=
          { materials := ctx.materials_cost
            labor := ctx.labor_cost
            other := ctx.other_costs
            total := total_costs }
        current_margin := 0
        target_margin := ctx.target_margin
        margin_gap := ctx.target_margin }
    parsing_notes := ["Fallback estimate created due to LLM processing failure"]
    parsing_confidence := 0 }

/-- The spec's wording of one keyword axis of the location heuristic
(§4.4): the hints agree on an axis when some keyword of that axis is
mentioned by both, or no keyword of the axis is mentioned by either
(the degenerate case). -/
def axisAgreement (keywords : List String) (l1 l2 : String) : Prop :=
  (∃ k ∈ keywords,
    strContains (pyLower l1) k = true ∧ strContains (pyLower l2) k = true) ∨
  (∀ k ∈ keywords,
    strContains (pyLower l1) k = false ∧ strContains (pyLower l2) k = false)

/-! ## Concrete example data used by counterexamples and witnesses -/

/-- A margin analysis satisfying the spec's margin formulas
(1000 estimate, 800 costs, 200 supplement, projected margin 1/3 against
target 0.33). -/
def exMargin : MarginAnalysis :=
  { original_estimate := 1000
    total_costs := 800
    current_margin := 1 / 5
    proposed_supplement_total := 200
    new_estimate_total := 1200
    projected_margin := 1 / 3
    target_margin := 33 / 100
    margin_gap_remaining := 33 / 100 - 1 / 3
    target_achieved := true }

/-- A consistent strategy holding `exMargin`. -/
def exStrategy : SupplementStrategy :=
  { supplements := [], margin_analysis := exMargin, strategy_notes := [] }

/-- A context holding `exStrategy`. -/
def exStrategyCtx : LoopCtx :=
  { estimate_interpretation := none
    gap_analysis := none
    supplement_strategy := some exStrategy }

/-- A review adjustment patching one margin field without recomputation. -/
def exMarginAdjustment : Adjustment :=
  { request_id := "ADJ-M1"
    target_type := "margin_analysis"
    target_id := "margin"
    field := "proposed_supplement_total"
    current_value := .num 200
    suggested_value := .num 500
    reason := "Reviewer believes more supplement value is defensible" }

/-- A single major-severity scope gap. -/
def exGapMajor : ScopeGap :=
  { gap_id := "GAP-1"
    category := "missing_line_item"
    severity := .major
    description := "Drip edge missing from estimate"
    linked_photos := []
    linked_estimate_lines := []
    confidence := 4 / 5
    unpaid_work_risk := false
    notes := none }

/-- A gap analysis whose summary correctly tallies `exGapMajor`. -/
def exGapAnalysis : GapAnalysis :=
  { scope_gaps := [exGapMajor]
    coverage_summary :=
      { critical_gaps := 0
        major_gaps := 1
        minor_gaps := 0
        total_unpaid_risk_items := 0
        narrative := "One major gap" } }

/-- A context holding `exGapAnalysis`. -/
def exGapCtx : LoopCtx :=
  { estimate_interpretation := none
    gap_analysis := some exGapAnalysis
    supplement_strategy := none }

/-- A review adjustment raising the gap's severity to critical. -/
def exSeverityAdjustment : Adjustment :=
  { request_id := "ADJ-G1"
    target_type := "gap"
    target_id := "GAP-1"
    field := "severity"
    current_value := .sev .major
    suggested_value := .sev .critical
    reason := "Unpaid drip edge is a critical exposure" }

/-- The never-approving review verdict of the repository's own integration
fixtures (`tests/llm_responses.py`, `get_review_response(approved=False)`):
rejected, one critical human flag, no reruns, no adjustments, not ready. -/
def forcedRejectionReview : ReviewResult :=
  { approved := false
    overall_assessment :=
      "Supplement package requires human review due to margin concerns"
    reruns_requested := []
    adjustments_requested := []
    human_flags :=
      [{ flag_id := "FLAG-001"
         severity := .critical
         reason := "Projected margin significantly below target"
         context := "Current supplements only achieve 3.5 percent margin"
         recommended_action := "Senior review required" }]
    carrier_risk_assessment :=
      { overall_risk := "medium"
        high_risk_items := ["SUP-003"]
        notes := some "Ice barrier supplement may face pushback" }
    ready_for_delivery := false }

/-- A concrete post-strategy context for the escalation scenario. -/
def exRunCtx : LoopCtx :=
  { estimate_interpretation := some (create_fallback_estimate
      { materials_cost := 9000, labor_cost := 4000, other_costs := 500,
        carrier := "State Farm", claim_number := "CLM-12345",
        target_margin := 33 / 100 })
    gap_analysis := some exGapAnalysis
    supplement_strategy := some exStrategy }

/-- Oracles whose review agent always rejects with a critical flag. -/
def forcedRejectionOracles : LoopOracles :=
  { reviews := fun _ => forcedRejectionReview
    gapResults := fun _ => create_fallback_gap_analysis
    strategistResults := fun _ => create_fallback_supplement_strategy
      { original_estimate_total := 0, actual_costs_total := 0, target_margin := 33 / 100 }
    estimateResults := fun _ => create_fallback_estimate
      { materials_cost := 0, labor_cost := 0, other_costs := 0,
        carrier := "unknown", claim_number := "",
        target_margin := 33 / 100 } }

/-- The result `Orchestrator.run` produces on the forced-rejection
scenario: the review loop runs, then the non-exception tail generates the
report and builds the terminal result. -/
def forcedRejectionRunResult : OrchestratorResult :=
  let r := loopExecute forcedRejectionOracles MAX_REVIEW_CYCLES
    (initLoopState exRunCtx)
  runAfterReview "JOB-TEST-001" r.1.ctx r.2 "<html></html>" 9 r.1.cycle

/-- A component seen by only one vision model with very low confidence. -/
def exLowConfidenceComponent : Component :=
  { component_type := "shingle"
    location_hint := "north slope"
    condition := "damaged_minor"
    description := "Possible hail bruising, hard to tell"
    estimated_area := none
    severity_score := 1 / 5
    detection_confidence := 1 / 10
    bbox := none }

/-- Vision evidence containing only the low-confidence component. -/
def exVisionA : VisionEvidence :=
  { photo_id := "PHOTO-1"
    components := [exLowConfidenceComponent]
    global_observations := [] }

/-- Vision evidence from the other model: nothing found. -/
def exVisionB : VisionEvidence :=
  { photo_id := "PHOTO-1", components := [], global_observations := [] }

/-- A vision component located on the north ridge. -/
def exNorthComponent : Component :=
  { component_type := "shingle"
    location_hint := "north ridge"
    condition := "damaged_severe"
    description := "Shingle damage near the north ridge line"
    estimated_area := none
    severity_score := 3 / 5
    detection_confidence := 9 / 10
    bbox := none }

/-- A same-type component located on the south valley. -/
def exSouthComponent : Component :=
  { component_type := "shingle"
    location_hint := "south valley"
    condition := "damaged_minor"
    description := "Minor shingle wear at the south valley"
    estimated_area := none
    severity_score := 1 / 5
    detection_confidence := 4 / 5
    bbox := none }

/-- A concrete line item present in the orchestration context. -/
def exLineItem : LineItem :=
  { line_id := "LINE-1"
    description := "Remove and replace asphalt shingles"
    scope_category := "roofing_installation"
    quantity := 30
    unit := "SQ"
    unit_price := 250
    total := 7500
    is_roofing_core := true
    is_code_item := false
    is_oversight_risk := false
    raw_line_text := none }

/-- A context that holds an estimate interpretation containing
`exLineItem` (so the line-item target object exists and has the field). -/
def exLineItemCtx : LoopCtx :=
  { estimate_interpretation := some
      { estimate_summary :=
          { carrier := "State Farm", claim_number := "CLM-12345",
            total_estimate_amount := 12990, roof_related_total := 11000,
            overhead_and_profit_included := false, depreciation_amount := 0 }
        line_items := [exLineItem]
        financials :=
          { original_estimate_total := 12990
            actual_costs := { materials := 9000, labor := 4000, other := 500, total := 13500 }
            current_margin := -39 / 1000
            target_margin := 33 / 100
            margin_gap := 369 / 1000 }
        parsing_notes := []
        parsing_confidence := 9 / 10 }
    gap_analysis := some exGapAnalysis
    supplement_strategy := some exStrategy }

/-- A review adjustment targeting the existing line item's existing
`unit_price` field. -/
def exLineItemAdjustment : Adjustment :=
  { request_id := "ADJ-L1"
    target_type := "line_item"
    target_id := "LINE-1"
    field := "unit_price"
    current_value := .num 250
    suggested_value := .num 275
    reason := "Regional pricing is higher" }

/-- A supplement proposal found by one model with confidence exactly at
the 0.6 singleton bar. -/
def exSupplementProposal : SupplementProposal :=
  { supplement_id := "SUP-001"
    type := "code_item"
    line_item_description := "Ice and water shield at eaves"
    justification := "Required by adopted code"
    source := "gap_analysis"
    linked_gaps := ["GAP-1"]
    linked_photos := []
    code_citation := some "IRC R905.1.2"
    quantity := 3
    unit := "SQ"
    estimated_unit_price := 150
    estimated_value := 450
    confidence := 7 / 10
    pushback_risk := "low"
    priority := "high" }

/-- A strategy holding exactly one supplement. -/
def exOneSupplementStrategy : SupplementStrategy :=
  { supplements := [exSupplementProposal]
    margin_analysis := exMargin
    strategy_notes := [] }

/-- An empty strategy (the fallback on a 1000/800 financial baseline). -/
def exEmptyStrategy : SupplementStrategy :=
  create_fallback_supplement_strategy
    { original_estimate_total := 1000, actual_costs_total := 800,
      target_margin := 33 / 100 }

/-! ## Theorems -/

/-- C1 (counterexample): the claim is false as stated — after the Review
Loop applies a `margin_analysis` adjustment, the margin formula can be
broken.  On a strategy whose margin analysis satisfies both formulas, the
loop's margin adjustment patches `proposed_supplement_total` from 200 to
500 and reports the change as applied, yet leaves `new_estimate_total` at
1200 ≠ 1000 + 500: the adjusted strategy held in the context violates
`new_estimate_total = original_estimate + proposed_supplement_total`. -/
theorem margin_formula_broken_by_review_margin_adjustment :
    marginConsistent exStrategy.margin_analysis ∧
    (applyAdjustment exStrategyCtx exMarginAdjustment).2 = true ∧
    (applyAdjustment exStrategyCtx exMarginAdjustment).1.supplement_strategy =
      some { exStrategy with
              margin_analysis :=
                { exMargin with proposed_supplement_total := 500 } } ∧
    ¬ marginConsistent { exMargin with proposed_supplement_total := 500 } := by
  refine ⟨⟨by norm_num [exStrategy, exMargin], ?_⟩, rfl, rfl, ?_⟩
  · show (true : Bool) = decide ((33 : ℚ) / 100 ≤ 1 / 3)
    rw [eq_comm, decide_eq_true_eq]
    norm_num
  · intro h
    have h1 := h.1
    norm_num [exMargin] at h1

/-- C1 (amended): every margin analysis the strategist consensus framework
*computes* — in a debate-round adjustment, in the final merge, and in the
fallback constructor — satisfies
`new_estimate_total = original_estimate + proposed_supplement_total` and
`target_achieved = (projected_margin ≥ target_margin)`; the invariant is
established by those constructors but not re-established after the Review
Loop patches a single margin field (and model-supplied margin analyses on
the single-model path are passed through unchecked). -/
theorem margin_formula_consistency_amended :
    (∀ a b : SupplementStrategy,
      marginConsistent (strategistFinalMerge a b).margin_analysis) ∧
    (∀ r o : SupplementStrategy, ∀ p : StrategistDebatePatch,
      marginConsistent (strategistApplyAdjustments r o p).margin_analysis) ∧
    (∀ ctx : FallbackStrategyContext,
      marginConsistent (create_fallback_supplement_strategy ctx).margin_analysis) := by
  refine ⟨fun a b => ⟨rfl, rfl⟩, fun r o p => ⟨rfl, rfl⟩, fun ctx => ⟨?_, rfl⟩⟩
  simp [create_fallback_supplement_strategy]

/-- C2 (counterexample): the claim is false as stated — after the Review
Loop applies a gap adjustment changing a gap's severity, the coverage
summary is stale.  On a gap analysis whose summary correctly tallies its
single major gap, the loop's gap adjustment flips the gap's severity to
critical and reports the change as applied, yet the summary still says
`critical_gaps = 0` while the actual tally over `scope_gaps` is 1. -/
theorem coverage_summary_broken_by_review_gap_adjustment :
    coverageConsistent exGapAnalysis ∧
    (applyAdjustment exGapCtx exSeverityAdjustment).2 = true ∧
    (applyAdjustment exGapCtx exSeverityAdjustment).1.gap_analysis =
      some { exGapAnalysis with
              scope_gaps := [{ exGapMajor with severity := .critical }] } ∧
    ¬ coverageConsistent
        { exGapAnalysis with
          scope_gaps := [{ exGapMajor with severity := .critical }] } := by
  refine ⟨⟨rfl, rfl, rfl, rfl⟩, rfl, rfl, ?_⟩
  intro h
  have h1 := h.1
  simp [exGapAnalysis, exGapMajor, countSeverity] at h1

/-- C2 (amended): the coverage summary equals the actual tally over
`scope_gaps` in every `GapAnalysis` the gap-consensus framework computes
(debate-round adjustments and the final merge both recompute the counts)
and in the sanitizer's backfill when the model omitted the summary; it is
NOT re-derived when the model supplies a summary (that summary is trusted
verbatim) nor after the Review Loop patches a gap field. -/
theorem coverage_summary_consistency_amended :
    (∀ r o : GapAnalysis, ∀ p : GapDebatePatch,
      coverageConsistent (gapApplyAdjustments r o p)) ∧
    (∀ a b : GapAnalysis, coverageConsistent (gapFinalMerge a b)) ∧
    (∀ gaps : List ScopeGap, coverageConsistent (sanitizeGapAnalysis gaps none)) := by
  exact ⟨fun r o p => ⟨rfl, rfl, rfl, rfl⟩,
         fun a b => ⟨rfl, rfl, rfl, rfl⟩,
         fun gaps => ⟨rfl, rfl, rfl, rfl⟩⟩

/-- C5 (counterexample): the claim is false as stated — when no secondary
model client is configured, an unrecognized framework name does NOT raise
at construction: every factory silently falls back to the single-model
framework (the guard `name == "single" or secondary_client is None` short
circuits before any name validation). -/
theorem unknown_framework_name_not_rejected_without_secondary :
    get_estimate_framework "bogus" false = .ok .single ∧
    get_gap_framework "bogus" false = .ok .single ∧
    get_strategist_framework "bogus" false = .ok .single ∧
    get_vision_framework "bogus" false = .ok .single_model := by
  exact ⟨rfl, rfl, rfl, rfl⟩

/-- C5 (amended): an unrecognized framework name fails fast at construction
time (a `ValueError` from the factory) when — and only when — a secondary
model client is configured; with no secondary client configured every name,
recognized or not, yields the single-model framework without error, and no
factory ever defers the name check to call time. -/
theorem framework_factory_fail_fast_amended :
    (∀ name : String, name ≠ "single" → name ≠ "ensemble" →
      get_estimate_framework name true =
        .error ("Unknown estimate framework: " ++ name)) ∧
    (∀ name : String, get_estimate_framework name false = .ok .single) ∧
    (∀ name : String, name ≠ "single" → name ≠ "consensus" →
      get_gap_framework name true = .error ("Unknown gap framework: " ++ name)) ∧
    (∀ name : String, get_gap_framework name false = .ok .single) ∧
    (∀ name : String, name ≠ "single" → name ≠ "consensus" →
      get_strategist_framework name true =
        .error ("Unknown strategist framework: " ++ name)) ∧
    (∀ name : String, get_strategist_framework name false = .ok .single) ∧
    (∀ name : String, name ≠ "single_model" → name ≠ "parallel_aggregate" →
      name ≠ "consensus_debate" → name ≠ "ensemble_voting" →
      get_vision_framework name true = .error ("Unknown framework: " ++ name)) ∧
    (∀ name : String, get_vision_framework name false = .ok .single_model) := by
  refine ⟨fun name h1 h2 => ?_, fun name => ?_, fun name h1 h2 => ?_, fun name => ?_,
    fun name h1 h2 => ?_, fun name => ?_, fun name h1 h2 h3 h4 => ?_, fun name => ?_⟩
  · simp [get_estimate_framework, h1, h2]
  · simp [get_estimate_framework]
  · simp [get_gap_framework, h1, h2]
  · simp [get_gap_framework]
  · simp [get_strategist_framework, h1, h2]
  · simp [get_strategist_framework]
  · simp [get_vision_framework, h1, h2, h3, h4]
  · simp [get_vision_framework]

/-- Witness for the amended C5 theorem: the unrecognized name "bogus"
is rejected by each factory when a secondary client is configured. -/
theorem framework_factory_fail_fast_amended_witness :
    get_estimate_framework "bogus" true =
      .error ("Unknown estimate framework: " ++ "bogus") ∧
    get_gap_framework "bogus" true = .error ("Unknown gap framework: " ++ "bogus") ∧
    get_strategist_framework "bogus" true =
      .error ("Unknown strategist framework: " ++ "bogus") ∧
    get_vision_framework "bogus" true = .error ("Unknown framework: " ++ "bogus") :=
  ⟨framework_factory_fail_fast_amended.1 "bogus" (by decide) (by decide),
   framework_factory_fail_fast_amended.2.2.1 "bogus" (by decide) (by decide),
   framework_factory_fail_fast_amended.2.2.2.2.1 "bogus" (by decide) (by decide),
   framework_factory_fail_fast_amended.2.2.2.2.2.2.1 "bogus" (by decide) (by decide)
     (by decide) (by decide)⟩

/-- C4 (code_bug): on a run whose review agent always rejects with a
critical human flag (the repository's own `force_escalation` fixture), the
review loop terminates unapproved, yet `Orchestrator.run()` proceeds to
report generation and returns `status = completed` with `success = true`
and NO `partial_results`; only `human_flags` are attached.  The escalation
constructor `_create_escalation_result` — which does produce
`status = escalated` with `partial_results`, as the claim and the
integration test `test_escalation_path` expect — is never invoked by
`run()`. -/
theorem run_returns_completed_not_escalated_on_forced_rejection :
    (loopExecute forcedRejectionOracles MAX_REVIEW_CYCLES
        (initLoopState exRunCtx)).2 = forcedRejectionReview ∧
    forcedRejectionReview.approved = false ∧
    forcedRejectionRunResult.status = JobStatus.completed ∧
    forcedRejectionRunResult.success = true ∧
    forcedRejectionRunResult.partial_results = none ∧
    forcedRejectionRunResult.human_flags = some forcedRejectionReview.human_flags ∧
    (createEscalationResult "JOB-TEST-001" exRunCtx forcedRejectionReview 9 1).status
      = JobStatus.escalated ∧
    (createEscalationResult "JOB-TEST-001" exRunCtx forcedRejectionReview 9
        1).partial_results =
      some { supplements := some exStrategy, gaps := some exGapAnalysis } := by
  exact ⟨rfl, rfl, rfl, rfl, rfl, rfl, rfl, rfl⟩

/-- C10: the orchestrator's LLM-call counter is raised by the static
per-framework charge immediately before each vision framework invocation —
once per retry attempt — so a photo failing all `MAX_RETRIES` attempts
still adds `MAX_RETRIES * charge` to the counter while contributing no
evidence (the retry loop reports failure and the photo is dropped); the
counter's value never influences control flow — running the retry loop
from any shifted counter shifts the result by exactly that amount and
leaves the outcome unchanged, so the declared `MAX_TOTAL_LLM_CALLS` budget
(referenced by no operation) never stops or alters a run — and the
failure result reports exactly the accumulated count. -/
theorem llm_counter_charged_per_attempt_and_never_bounded :
    (∀ (charge : ℕ) (outcomes : ℕ → Bool) (counter : ℕ),
      (∀ i, i < MAX_RETRIES → outcomes i = false) →
      runVisionWithRetry charge outcomes counter =
        (counter + MAX_RETRIES * charge, false)) ∧
    (∀ (charge : ℕ) (outcomes : ℕ → Bool) (fuel i c k : ℕ),
      (runVisionWithRetryAux charge outcomes fuel i (c + k)).1 =
        (runVisionWithRetryAux charge outcomes fuel i c).1 + k ∧
      (runVisionWithRetryAux charge outcomes fuel i (c + k)).2 =
        (runVisionWithRetryAux charge outcomes fuel i c).2) ∧
    visionFrameworkLLMCalls "parallel_aggregate" = 2 ∧
    (∀ jobId msg c, (runFailureResult jobId msg c).llm_calls = c) := by
  refine ⟨?_, ?_, rfl, fun _ _ _ => rfl⟩
  · intro charge outcomes counter h
    have h0 := h 0 (by norm_num [MAX_RETRIES])
    have h1 := h 1 (by norm_num [MAX_RETRIES])
    have h2 := h 2 (by norm_num [MAX_RETRIES])
    simp only [runVisionWithRetry, MAX_RETRIES, runVisionWithRetryAux, h0, h1, h2,
      if_false, Bool.false_eq_true]
    refine Prod.ext ?_ rfl
    simp only []
    omega
  · intro charge outcomes fuel
    induction fuel with
    | zero => intro i c k; exact ⟨rfl, rfl⟩
    | succ n ih =>
      intro i c k
      simp only [runVisionWithRetryAux]
      by_cases hout : outcomes i = true
      · simp [hout, Nat.add_right_comm]
      · simp only [hout, Bool.false_eq_true, if_false]
        have := ih (i + 1) (c + charge) k
        simpa [Nat.add_right_comm c charge k] using this

/-- Witness for C10: with the constantly failing outcome oracle and the
parallel-aggregate charge of 2, a dropped photo adds 3 * 2 = 6 calls
starting from counter 0. -/
theorem llm_counter_charged_per_attempt_witness :
    runVisionWithRetry (visionFrameworkLLMCalls "parallel_aggregate")
      (fun _ => false) 0 = (0 + 3 * 2, false) :=
  llm_counter_charged_per_attempt_and_never_bounded.1
    (visionFrameworkLLMCalls "parallel_aggregate") (fun _ => false) 0
    (fun _ _ => rfl)

/-- The rerun-count bookkeeping of `_execute_rerun`: whatever stage branch
is taken, the target agent's count is incremented and nothing else in the
count map changes. -/
theorem executeRerun_rerunCounts (oracles : LoopOracles) (st : LoopState)
    (r : RerunRequest) :
    (executeRerun oracles st r).rerunCounts =
      fun a => if a = r.target_agent then st.rerunCounts a + 1
               else st.rerunCounts a := by
  unfold executeRerun
  dsimp only
  split_ifs <;> rfl

/-- The ghost log of `_execute_rerun`: exactly one entry, the target agent,
is appended. -/
theorem executeRerun_executedReruns (oracles : LoopOracles) (st : LoopState)
    (r : RerunRequest) :
    (executeRerun oracles st r).executedReruns =
      st.executedReruns ++ [r.target_agent] := by
  unfold executeRerun
  dsimp only
  split_ifs <;> rfl

/-- The rerun-budget invariant: the count map agrees with the ghost log and
every agent's count respects the budget. -/
def RerunInv (st : LoopState) : Prop :=
  ∀ a : String, st.rerunCounts a = st.executedReruns.count a ∧
    st.rerunCounts a ≤ MAX_RERUNS_PER_AGENT

/-- Applying adjustments only rewrites the context: counts and log are
untouched by the adjustment fold inside `_process_feedback`. -/
theorem adjFold_counts (adjs : List Adjustment) (p : LoopState × Bool) :
    ((adjs.foldl (fun (acc : LoopState × Bool) adj =>
        let r := applyAdjustment acc.1.ctx adj
        ({ acc.1 with ctx := r.1 }, acc.2 || r.2)) p).1.rerunCounts
      = p.1.rerunCounts) ∧
    ((adjs.foldl (fun (acc : LoopState × Bool) adj =>
        let r := applyAdjustment acc.1.ctx adj
        ({ acc.1 with ctx := r.1 }, acc.2 || r.2)) p).1.executedReruns
      = p.1.executedReruns) := by
  induction adjs generalizing p with
  | nil => exact ⟨rfl, rfl⟩
  | cons a t ih =>
    simpa using ih (({ p.1 with ctx := (applyAdjustment p.1.ctx a).1 },
      p.2 || (applyAdjustment p.1.ctx a).2))

/-- One gated rerun step preserves the invariant: the execution is guarded
by `_can_rerun`, so an agent's count only grows while strictly below the
budget. -/
theorem rerunStep_inv (oracles : LoopOracles) (st : LoopState)
    (r : RerunRequest) (h : RerunInv st) (hc : canRerun st r.target_agent = true) :
    RerunInv (executeRerun oracles st r) := by
  intro a
  rw [executeRerun_rerunCounts, executeRerun_executedReruns,
    List.count_append]
  dsimp only
  by_cases ha : a = r.target_agent
  · have hlt : st.rerunCounts r.target_agent < MAX_RERUNS_PER_AGENT := by
      simpa [canRerun] using hc
    refine ⟨?_, ?_⟩
    · rw [if_pos ha, (h a).1, ha]
      simp
    · rw [if_pos ha, ha]
      omega
  · have hzero : List.count a [r.target_agent] = 0 := by
      rw [List.count_eq_zero]
      simp [ha]
    refine ⟨?_, ?_⟩
    · rw [if_neg ha, (h a).1, hzero]
      omega
    · rw [if_neg ha]
      exact (h a).2

/-- The rerun fold of `_process_feedback` preserves the invariant. -/
theorem rerunFold_inv (oracles : LoopOracles) (rrs : List RerunRequest)
    (p : LoopState × Bool) (h : RerunInv p.1) :
    RerunInv ((rrs.foldl (fun (acc : LoopState × Bool) rr =>
      if canRerun acc.1 rr.target_agent then (executeRerun oracles acc.1 rr, true)
      else acc) p).1) := by
  induction rrs generalizing p with
  | nil => exact h
  | cons r t ih =>
    simp only [List.foldl_cons]
    by_cases hc : canRerun p.1 r.target_agent = true
    · rw [if_pos hc]
      exact ih (executeRerun oracles p.1 r, true) (rerunStep_inv oracles p.1 r h hc)
    · rw [if_neg hc]
      exact ih p h

/-- Models `_process_feedback` preserves the rerun-budget invariant. -/
theorem processFeedback_inv (oracles : LoopOracles) (st : LoopState)
    (review : ReviewResult) (h : RerunInv st) :
    RerunInv (processFeedback oracles st review).1 := by
  unfold processFeedback
  apply rerunFold_inv
  intro a
  have hc := adjFold_counts review.adjustments_requested (st, false)
  rw [hc.1, hc.2]
  exact h a

/-- Models `ReviewLoop.execute` preserves the rerun-budget invariant across any
number of cycles and any review-oracle behavior. -/
theorem loopExecute_inv (oracles : LoopOracles) (fuel : ℕ) (st : LoopState)
    (h : RerunInv st) : RerunInv (loopExecute oracles fuel st).1 := by
  induction fuel generalizing st with
  | zero => exact h
  | succ n ih =>
    unfold loopExecute
    dsimp only
    have h1 : RerunInv { st with
        cycle := st.cycle + 1
        review_results := st.review_results ++ [oracles.reviews st.cycle] } := h
    split_ifs with hap hcf hnf hch
    · exact h1
    · exact h1
    · exact h1
    · exact ih _ (processFeedback_inv oracles _ _ h1)
    · exact processFeedback_inv oracles _ _ h1

/-- C3: across a whole review-loop run — any cycle budget, any review-agent
behavior, any stage-rerun results, any starting context — the number of
reruns actually executed for any target agent never exceeds
`MAX_RERUNS_PER_AGENT`; once the budget is reached, later requests for the
same agent are skipped (the gate `_can_rerun` fails), so the executed-rerun
log holds at most `MAX_RERUNS_PER_AGENT` entries per agent. -/
theorem rerun_budget_never_exceeded (oracles : LoopOracles) (fuel : ℕ)
    (ctx : LoopCtx) (agent : String) :
    ((loopExecute oracles fuel (initLoopState ctx)).1.executedReruns).count agent
      ≤ MAX_RERUNS_PER_AGENT := by
  have hinit : RerunInv (initLoopState ctx) := by
    intro a
    exact ⟨rfl, by simp [MAX_RERUNS_PER_AGENT, initLoopState]⟩
  have h := loopExecute_inv oracles fuel (initLoopState ctx) hinit agent
  rw [← h.1]
  exact h.2

/-- Membership in the deduplication helper: an element appears exactly when
it occurs in the remaining input and was not already seen. -/
theorem mem_dedupFirstAux (l : List String) :
    ∀ (seen : List String) (x : String),
      x ∈ dedupFirstAux seen l ↔ x ∈ l ∧ x ∉ seen := by
  induction l with
  | nil => intro seen x; simp [dedupFirstAux]
  | cons k ks ih =>
    intro seen x
    rw [dedupFirstAux]
    by_cases hk : seen.contains k = true
    · rw [if_pos hk, ih]
      constructor
      · rintro ⟨h1, h2⟩
        exact ⟨List.mem_cons_of_mem _ h1, h2⟩
      · rintro ⟨h1, h2⟩
        rcases List.mem_cons.mp h1 with rfl | h3
        · have hmem : x ∈ seen := by simpa using hk
          exact absurd hmem h2
        · exact ⟨h3, h2⟩
    · rw [if_neg hk]
      constructor
      · intro hx
        rcases List.mem_cons.mp hx with rfl | hx2
        · exact ⟨List.mem_cons_self _ _, by
            intro hmem
            exact hk (List.elem_iff.mpr hmem)⟩
        · rcases (ih _ _).mp hx2 with ⟨h1, h2⟩
          refine ⟨List.mem_cons_of_mem _ h1, fun hmem => h2 ?_⟩
          exact List.mem_append_left _ hmem
      · rintro ⟨h1, h2⟩
        rcases List.mem_cons.mp h1 with rfl | h3
        · exact List.mem_cons_self _ _
        · by_cases hxk : x = k
          · subst hxk; exact List.mem_cons_self _ _
          · refine List.mem_cons_of_mem _ ((ih _ _).mpr ⟨h3, ?_⟩)
            intro hmem
            rcases List.mem_append.mp hmem with h4 | h4
            · exact h2 h4
            · exact hxk (List.mem_singleton.mp h4)

/-- Membership is unchanged by first-occurrence deduplication. -/
theorem mem_dedupFirst (l : List String) (x : String) :
    x ∈ dedupFirst l ↔ x ∈ l := by
  rw [dedupFirst, mem_dedupFirstAux]
  simp

/-- Models `pyMaxBy` returns one of its inputs. -/
theorem pyMaxBy_mem (f : α → ℚ) (b : α) (l : List α) : pyMaxBy f b l ∈ b :: l := by
  induction l generalizing b with
  | nil => simp [pyMaxBy]
  | cons x xs ih =>
    rw [pyMaxBy]
    split_ifs with hlt
    · exact List.mem_cons_of_mem _ (ih x)
    · rcases List.mem_cons.mp (ih b) with h1 | h2
      · rw [h1]; exact List.mem_cons_self _ _
      · exact List.mem_cons_of_mem _ (List.mem_cons_of_mem _ h2)

/-- Any gap the per-key merge decision returns carries that key. -/
theorem gapSurvivor_key {items : List ScopeGap} {k : String} {g : ScopeGap}
    (h : gapSurvivor items k = some g) : gapKey g = k := by
  unfold gapSurvivor at h
  cases hfil : items.filter (fun x => gapKey x == k) with
  | nil => rw [hfil] at h; cases h
  | cons g0 rest =>
    have hg0 : gapKey g0 = k := by
      have hmem : g0 ∈ items.filter (fun x => gapKey x == k) := by
        rw [hfil]; exact List.mem_cons_self _ _
      exact eq_of_beq (List.mem_filter.mp hmem).2
    cases rest with
    | nil =>
      rw [hfil] at h
      dsimp at h
      split_ifs at h
      · cases h; exact hg0
    | cons g1 rest2 =>
      rw [hfil] at h
      dsimp at h
      cases h
      have hmem : pyMaxBy (fun x => x.confidence) g0 (g1 :: rest2) ∈
          items.filter (fun x => gapKey x == k) := by
        rw [hfil]; exact pyMaxBy_mem _ _ _
      exact eq_of_beq (List.mem_filter.mp hmem).2

/-- Swapping the argument order of the gap merge does not change whether a
key has a survivor: the concatenations are permutations, so each key's
group has the same members (and the same unique member when singleton). -/
theorem gapSurvivor_isSome_comm (a b : List ScopeGap) (k : String) :
    (gapSurvivor (a ++ b) k).isSome = (gapSurvivor (b ++ a) k).isSome := by
  have hperm : List.Perm ((a ++ b).filter (fun x => gapKey x == k))
      ((b ++ a).filter (fun x => gapKey x == k)) :=
    List.perm_append_comm.filter _
  unfold gapSurvivor
  cases h1 : (a ++ b).filter (fun x => gapKey x == k) with
  | nil =>
    have h2 : (b ++ a).filter (fun x => gapKey x == k) = [] := by
      rw [h1] at hperm
      exact hperm.symm.eq_nil
    rw [h2]
  | cons g0 rest =>
    cases rest with
    | nil =>
      have h2 : (b ++ a).filter (fun x => gapKey x == k) = [g0] := by
        rw [h1] at hperm
        exact List.perm_singleton.mp hperm.symm
      rw [h2]
    | cons g1 rest2 =>
      have hlen := hperm.length_eq
      rw [h1] at hlen
      cases h2 : (b ++ a).filter (fun x => gapKey x == k) with
      | nil => rw [h2] at hlen; simp at hlen
      | cons q0 qrest =>
        cases qrest with
        | nil => rw [h2] at hlen; simp at hlen
        | cons q1 qrest2 => rfl

/-- Characterization of the keys surviving the gap final merge: a key is in
the merged result exactly when some input gap carries it and its group
passes the agreement-or-confidence bar. -/
theorem mem_keys_gapFinalMerge (a b : GapAnalysis) (k : String) :
    k ∈ (gapFinalMerge a b).scope_gaps.map gapKey ↔
      (k ∈ (a.scope_gaps ++ b.scope_gaps).map gapKey ∧
       (gapSurvivor (a.scope_gaps ++ b.scope_gaps) k).isSome = true) := by
  unfold gapFinalMerge
  dsimp only
  constructor
  · intro hk
    rcases List.mem_map.mp hk with ⟨g, hg, hkey⟩
    rcases List.mem_filterMap.mp hg with ⟨k0, hk0, hsurv⟩
    have hgk0 := gapSurvivor_key hsurv
    have hk0k : k0 = k := by rw [← hgk0, hkey]
    subst hk0k
    refine ⟨(mem_dedupFirst _ _).mp hk0, ?_⟩
    rw [hsurv]
    rfl
  · rintro ⟨hmem, hsome⟩
    have hkeys : k ∈ dedupFirst ((a.scope_gaps ++ b.scope_gaps).map gapKey) :=
      (mem_dedupFirst _ _).mpr hmem
    rcases Option.isSome_iff_exists.mp hsome with ⟨g, hg⟩
    exact List.mem_map.mpr
      ⟨g, List.mem_filterMap.mpr ⟨k, hkeys, hg⟩, gapSurvivor_key hg⟩

/-- Any supplement the per-key merge decision returns carries that key. -/
theorem strategistSurvivor_key {items : List SupplementProposal} {k : String}
    {s : SupplementProposal} (h : strategistSurvivor items k = some s) :
    itemKey s = k := by
  unfold strategistSurvivor at h
  cases hfil : items.filter (fun x => itemKey x == k) with
  | nil => rw [hfil] at h; cases h
  | cons s0 rest =>
    have hs0 : itemKey s0 = k := by
      have hmem : s0 ∈ items.filter (fun x => itemKey x == k) := by
        rw [hfil]; exact List.mem_cons_self _ _
      exact eq_of_beq (List.mem_filter.mp hmem).2
    cases rest with
    | nil =>
      rw [hfil] at h
      dsimp at h
      split_ifs at h
      · cases h; exact hs0
    | cons s1 rest2 =>
      rw [hfil] at h
      dsimp at h
      cases h
      have hmem : pyMaxBy (fun x => x.confidence) s0 (s1 :: rest2) ∈
          items.filter (fun x => itemKey x == k) := by
        rw [hfil]; exact pyMaxBy_mem _ _ _
      exact eq_of_beq (List.mem_filter.mp hmem).2

/-- Swapping the argument order of the strategist merge does not change
whether a key has a survivor. -/
theorem strategistSurvivor_isSome_comm (a b : List SupplementProposal)
    (k : String) :
    (strategistSurvivor (a ++ b) k).isSome =
      (strategistSurvivor (b ++ a) k).isSome := by
  have hperm : List.Perm ((a ++ b).filter (fun x => itemKey x == k))
      ((b ++ a).filter (fun x => itemKey x == k)) :=
    List.perm_append_comm.filter _
  unfold strategistSurvivor
  cases h1 : (a ++ b).filter (fun x => itemKey x == k) with
  | nil =>
    have h2 : (b ++ a).filter (fun x => itemKey x == k) = [] := by
      rw [h1] at hperm
      exact hperm.symm.eq_nil
    rw [h2]
  | cons s0 rest =>
    cases rest with
    | nil =>
      have h2 : (b ++ a).filter (fun x => itemKey x == k) = [s0] := by
        rw [h1] at hperm
        exact List.perm_singleton.mp hperm.symm
      rw [h2]
    | cons s1 rest2 =>
      have hlen := hperm.length_eq
      rw [h1] at hlen
      cases h2 : (b ++ a).filter (fun x => itemKey x == k) with
      | nil => rw [h2] at hlen; simp at hlen
      | cons q0 qrest =>
        cases qrest with
        | nil => rw [h2] at hlen; simp at hlen
        | cons q1 qrest2 => rfl

/-- Characterization of the keys surviving the strategist final merge (the
descending value sort is a permutation and does not affect key
membership). -/
theorem mem_keys_strategistFinalMerge (a b : SupplementStrategy) (k : String) :
    k ∈ (strategistFinalMerge a b).supplements.map itemKey ↔
      (k ∈ (a.supplements ++ b.supplements).map itemKey ∧
       (strategistSurvivor (a.supplements ++ b.supplements) k).isSome = true) := by
  have hsorted :
      k ∈ (strategistFinalMerge a b).supplements.map itemKey ↔
      k ∈ ((dedupFirst ((a.supplements ++ b.supplements).map itemKey)).filterMap
            (strategistSurvivor (a.supplements ++ b.supplements))).map itemKey := by
    unfold strategistFinalMerge
    dsimp only
    exact (List.mergeSort_perm _ _).map itemKey |>.mem_iff
  rw [hsorted]
  constructor
  · intro hk
    rcases List.mem_map.mp hk with ⟨s, hs, hkey⟩
    rcases List.mem_filterMap.mp hs with ⟨k0, hk0, hsurv⟩
    have hsk0 := strategistSurvivor_key hsurv
    have hk0k : k0 = k := by rw [← hsk0, hkey]
    subst hk0k
    refine ⟨(mem_dedupFirst _ _).mp hk0, ?_⟩
    rw [hsurv]
    rfl
  · rintro ⟨hmem, hsome⟩
    have hkeys : k ∈ dedupFirst ((a.supplements ++ b.supplements).map itemKey) :=
      (mem_dedupFirst _ _).mpr hmem
    rcases Option.isSome_iff_exists.mp hsome with ⟨s, hs⟩
    exact List.mem_map.mpr
      ⟨s, List.mem_filterMap.mpr ⟨k, hkeys, hs⟩, strategistSurvivor_key hs⟩

/-- Any component the vision per-type merge decision returns carries that
component type. -/
theorem visionSurvivor_key {comps : List Component} {k : String} {c : Component}
    (h : visionSurvivor comps k = some c) : c.component_type = k := by
  unfold visionSurvivor at h
  cases hfil : comps.filter (fun x => x.component_type == k) with
  | nil => rw [hfil] at h; cases h
  | cons c0 rest =>
    have hc0 : c0.component_type = k := by
      have hmem : c0 ∈ comps.filter (fun x => x.component_type == k) := by
        rw [hfil]; exact List.mem_cons_self _ _
      exact eq_of_beq (List.mem_filter.mp hmem).2
    cases rest with
    | nil =>
      rw [hfil] at h
      dsimp at h
      cases h
      exact hc0
    | cons c1 rest2 =>
      rw [hfil] at h
      dsimp at h
      cases h
      rfl

/-- Characterization of the component types surviving the vision
consensus-debate final merge: every type found by either side survives —
singleton groups are included with no confidence test. -/
theorem mem_keys_visionFinalMerge (pid : String) (a b : VisionEvidence)
    (k : String) :
    k ∈ (visionFinalMerge pid a b).components.map (fun c => c.component_type) ↔
      k ∈ (a.components ++ b.components).map (fun c => c.component_type) := by
  unfold visionFinalMerge
  dsimp only
  constructor
  · intro hk
    rcases List.mem_map.mp hk with ⟨c, hc, hkey⟩
    rcases List.mem_filterMap.mp hc with ⟨k0, hk0, hsurv⟩
    have hck0 := visionSurvivor_key hsurv
    have hk0k : k0 = k := by rw [← hck0, hkey]
    subst hk0k
    exact (mem_dedupFirst _ _).mp hk0
  · intro hmem
    have hkeys : k ∈ dedupFirst
        ((a.components ++ b.components).map (fun c => c.component_type)) :=
      (mem_dedupFirst _ _).mpr hmem
    have hsome : (visionSurvivor (a.components ++ b.components) k).isSome = true := by
      rcases List.mem_map.mp hmem with ⟨c, hc, hkey⟩
      have hcf : c ∈ (a.components ++ b.components).filter
          (fun x => x.component_type == k) :=
        List.mem_filter.mpr ⟨hc, beq_iff_eq.mpr hkey⟩
      unfold visionSurvivor
      cases hfil : (a.components ++ b.components).filter
          (fun x => x.component_type == k) with
      | nil => rw [hfil] at hcf; cases hcf
      | cons c0 rest =>
        cases rest with
        | nil => rfl
        | cons c1 rest2 => rfl
    rcases Option.isSome_iff_exists.mp hsome with ⟨c, hc⟩
    exact List.mem_map.mpr
      ⟨c, List.mem_filterMap.mpr ⟨k, hkeys, hc⟩, visionSurvivor_key hc⟩

/-- C9: swapping the argument order of the gap and strategist consensus
final merges leaves the set of surviving item keys unchanged: a key clears
the two-member agreement bar or the singleton confidence threshold for
merge(A, B) exactly when it does for merge(B, A). -/
theorem consensus_merge_surviving_keys_commutative :
    (∀ a b : GapAnalysis, ∀ k : String,
      k ∈ (gapFinalMerge a b).scope_gaps.map gapKey ↔
      k ∈ (gapFinalMerge b a).scope_gaps.map gapKey) ∧
    (∀ a b : SupplementStrategy, ∀ k : String,
      k ∈ (strategistFinalMerge a b).supplements.map itemKey ↔
      k ∈ (strategistFinalMerge b a).supplements.map itemKey) := by
  constructor
  · intro a b k
    rw [mem_keys_gapFinalMerge, mem_keys_gapFinalMerge, gapSurvivor_isSome_comm]
    exact and_congr_left fun _ => (List.perm_append_comm.map gapKey).mem_iff
  · intro a b k
    rw [mem_keys_strategistFinalMerge, mem_keys_strategistFinalMerge,
      strategistSurvivor_isSome_comm]
    exact and_congr_left fun _ => (List.perm_append_comm.map itemKey).mem_iff

/-- C6 (counterexample): the claim is false as stated for the vision
consensus-debate final merge — a component found by only one model with
detection confidence 0.1, far below every threshold in the 0.6–0.7 band,
is still included in the merged result rather than dropped. -/
theorem vision_merge_keeps_singleton_below_threshold :
    (visionFinalMerge "PHOTO-1" exVisionA exVisionB).components =
      [exLowConfidenceComponent] ∧
    exLowConfidenceComponent.detection_confidence < 3 / 5 := by
  constructor
  · rfl
  · norm_num [exLowConfidenceComponent]

/-- C6 (amended): in the gap and strategist consensus final merges a key
whose group has exactly one member survives exactly when that item's own
confidence meets the minimum threshold (0.7 for gaps, 0.6 for
supplements); the vision consensus-debate final merge, by contrast,
includes every singleton component unconditionally. -/
theorem singleton_confidence_threshold_amended :
    (∀ a b : GapAnalysis, ∀ k : String, ∀ g : ScopeGap,
      (a.scope_gaps ++ b.scope_gaps).filter (fun x => gapKey x == k) = [g] →
      (k ∈ (gapFinalMerge a b).scope_gaps.map gapKey ↔
        (7 : ℚ) / 10 ≤ g.confidence)) ∧
    (∀ a b : SupplementStrategy, ∀ k : String, ∀ s : SupplementProposal,
      (a.supplements ++ b.supplements).filter (fun x => itemKey x == k) = [s] →
      (k ∈ (strategistFinalMerge a b).supplements.map itemKey ↔
        (3 : ℚ) / 5 ≤ s.confidence)) ∧
    (∀ pid : String, ∀ a b : VisionEvidence, ∀ k : String, ∀ c : Component,
      (a.components ++ b.components).filter (fun x => x.component_type == k) = [c] →
      k ∈ (visionFinalMerge pid a b).components.map (fun x => x.component_type)) := by
  refine ⟨?_, ?_, ?_⟩
  · intro a b k g hfil
    have hmemf : g ∈ (a.scope_gaps ++ b.scope_gaps).filter
        (fun x => gapKey x == k) := by
      rw [hfil]; exact List.mem_cons_self _ _
    have hg : gapKey g = k := eq_of_beq (List.mem_filter.mp hmemf).2
    have hmem : k ∈ (a.scope_gaps ++ b.scope_gaps).map gapKey :=
      List.mem_map.mpr ⟨g, (List.mem_filter.mp hmemf).1, hg⟩
    rw [mem_keys_gapFinalMerge]
    constructor
    · rintro ⟨-, hsome⟩
      unfold gapSurvivor at hsome
      rw [hfil] at hsome
      dsimp at hsome
      split_ifs at hsome with hconf
      · exact hconf
      · simp at hsome
    · intro hconf
      refine ⟨hmem, ?_⟩
      unfold gapSurvivor
      rw [hfil]
      dsimp
      rw [if_pos hconf]
      rfl
  · intro a b k s hfil
    have hmemf : s ∈ (a.supplements ++ b.supplements).filter
        (fun x => itemKey x == k) := by
      rw [hfil]; exact List.mem_cons_self _ _
    have hs : itemKey s = k := eq_of_beq (List.mem_filter.mp hmemf).2
    have hmem : k ∈ (a.supplements ++ b.supplements).map itemKey :=
      List.mem_map.mpr ⟨s, (List.mem_filter.mp hmemf).1, hs⟩
    rw [mem_keys_strategistFinalMerge]
    constructor
    · rintro ⟨-, hsome⟩
      unfold strategistSurvivor at hsome
      rw [hfil] at hsome
      dsimp at hsome
      split_ifs at hsome with hconf
      · exact hconf
      · simp at hsome
    · intro hconf
      refine ⟨hmem, ?_⟩
      unfold strategistSurvivor
      rw [hfil]
      dsimp
      rw [if_pos hconf]
      rfl
  · intro pid a b k c hfil
    have hmemf : c ∈ (a.components ++ b.components).filter
        (fun x => x.component_type == k) := by
      rw [hfil]; exact List.mem_cons_self _ _
    have hc : c.component_type = k := eq_of_beq (List.mem_filter.mp hmemf).2
    rw [mem_keys_visionFinalMerge]
    exact List.mem_map.mpr ⟨c, (List.mem_filter.mp hmemf).1, hc⟩

/-- Witness for the amended C6 theorem: a single-member gap group at
confidence 0.8 against the 0.7 bar, a single-member supplement group at
confidence 0.7 against the 0.6 bar, and a singleton vision component that
survives unconditionally. -/
theorem singleton_confidence_threshold_amended_witness :
    (gapKey exGapMajor ∈
        (gapFinalMerge exGapAnalysis create_fallback_gap_analysis).scope_gaps.map
          gapKey ↔ (7 : ℚ) / 10 ≤ exGapMajor.confidence) ∧
    (itemKey exSupplementProposal ∈
        (strategistFinalMerge exOneSupplementStrategy
          exEmptyStrategy).supplements.map itemKey ↔
      (3 : ℚ) / 5 ≤ exSupplementProposal.confidence) ∧
    "shingle" ∈ (visionFinalMerge "PHOTO-1" exVisionA exVisionB).components.map
      (fun x => x.component_type) :=
  ⟨singleton_confidence_threshold_amended.1 exGapAnalysis
      create_fallback_gap_analysis (gapKey exGapMajor) exGapMajor
      (by simp [exGapAnalysis, create_fallback_gap_analysis]),
   singleton_confidence_threshold_amended.2.1 exOneSupplementStrategy
      exEmptyStrategy (itemKey exSupplementProposal) exSupplementProposal
      (by simp [exOneSupplementStrategy, exEmptyStrategy,
        create_fallback_supplement_strategy]),
   singleton_confidence_threshold_amended.2.2 "PHOTO-1" exVisionA exVisionB
      "shingle" exLowConfidenceComponent
      (by simp [exVisionA, exVisionB, exLowConfidenceComponent])⟩

/-- One keyword axis of `locationsSimilar`, as computed (filters and
boolean tests), agrees with the spec's wording of that axis. -/
theorem axis_bool_iff_axisAgreement (keywords : List String) (l1 l2 : String) :
    ((((keywords.filter (fun d => strContains (pyLower l1) d)).any
        (fun d => (keywords.filter (fun d => strContains (pyLower l2) d)).contains d))
      || ((keywords.filter (fun d => strContains (pyLower l1) d)).isEmpty &&
          (keywords.filter (fun d => strContains (pyLower l2) d)).isEmpty)) = true)
    ↔ axisAgreement keywords l1 l2 := by
  rw [Bool.or_eq_true, Bool.and_eq_true, List.any_eq_true]
  unfold axisAgreement
  constructor
  · rintro (⟨d, hd, hcont⟩ | ⟨he1, he2⟩)
    · left
      have h1 := List.mem_filter.mp hd
      have hmem : d ∈ keywords.filter (fun d => strContains (pyLower l2) d) := by
        simpa using hcont
      have h2 := List.mem_filter.mp hmem
      exact ⟨d, h1.1, h1.2, h2.2⟩
    · right
      intro k hk
      rw [List.isEmpty_iff] at he1 he2
      constructor
      · by_contra hc
        have : k ∈ keywords.filter (fun d => strContains (pyLower l1) d) :=
          List.mem_filter.mpr ⟨hk, by simpa using hc⟩
        rw [he1] at this
        cases this
      · by_contra hc
        have : k ∈ keywords.filter (fun d => strContains (pyLower l2) d) :=
          List.mem_filter.mpr ⟨hk, by simpa using hc⟩
        rw [he2] at this
        cases this
  · rintro (⟨d, hd, hc1, hc2⟩ | hall)
    · left
      refine ⟨d, List.mem_filter.mpr ⟨hd, hc1⟩, ?_⟩
      simpa using List.mem_filter.mpr ⟨hd, hc2⟩
    · right
      rw [List.isEmpty_iff, List.isEmpty_iff]
      constructor
      · rw [List.filter_eq_nil_iff]
        intro k hk
        simp [(hall k hk).1]
      · rw [List.filter_eq_nil_iff]
        intro k hk
        simp [(hall k hk).2]

/-- Soundness of the aggregator's matcher scan: a returned index points at
an unused candidate of the same type with similar location hints. -/
theorem findMatchingComponentAux_sound (t : Component) (used : List ℕ) :
    ∀ (l : List Component) (j i : ℕ),
      findMatchingComponentAux t used l j = some i →
      j ≤ i ∧ ∃ c, l[i - j]? = some c ∧ used.contains i = false ∧
        t.component_type = c.component_type ∧
        locationsSimilar t.location_hint c.location_hint = true := by
  intro l
  induction l with
  | nil => intro j i h; cases h
  | cons c rest ih =>
    intro j i h
    rw [findMatchingComponentAux] at h
    split_ifs at h with hcond
    · cases h
      rw [Bool.and_eq_true, Bool.and_eq_true] at hcond
      obtain ⟨⟨hu, hty⟩, hloc⟩ := hcond
      exact ⟨le_refl _, c, by simp, by simpa using hu, eq_of_beq hty, hloc⟩
    · obtain ⟨hle, c2, hg, hu, hty, hloc⟩ := ih (j + 1) i h
      refine ⟨by omega, c2, ?_, hu, hty, hloc⟩
      have hidx : i - j = (i - (j + 1)) + 1 := by omega
      rw [hidx]
      simpa using hg

/-- Completeness of the aggregator's matcher scan: when it returns nothing,
no unused candidate has the same type with similar location hints. -/
theorem findMatchingComponentAux_none (t : Component) (used : List ℕ) :
    ∀ (l : List Component) (j : ℕ),
      findMatchingComponentAux t used l j = none →
      ∀ (d : ℕ) (c : Component), l[d]? = some c →
        used.contains (j + d) = false →
        ¬(t.component_type = c.component_type ∧
          locationsSimilar t.location_hint c.location_hint = true) := by
  intro l
  induction l with
  | nil => intro j h d c hget; cases hget
  | cons c0 rest ih =>
    intro j h d c hget hu
    rw [findMatchingComponentAux] at h
    split_ifs at h with hcond
    · cases d with
      | zero =>
        rintro ⟨hty, hloc⟩
        simp at hget
        subst hget
        apply hcond
        rw [Bool.and_eq_true, Bool.and_eq_true]
        refine ⟨⟨?_, beq_iff_eq.mpr hty⟩, hloc⟩
        simpa using hu
      | succ d2 =>
        have := ih (j + 1) h d2 c (by simpa using hget)
          (by rw [Nat.add_right_comm]; simpa [Nat.add_assoc] using hu)
        exact this

/-- Soundness of the framework's matcher scan: a returned index points at
an unused candidate of the same type (no location condition at all). -/
theorem findMatchAux_sound (t : Component) (used : List ℕ) :
    ∀ (l : List Component) (j i : ℕ),
      findMatchAux t used l j = some i →
      j ≤ i ∧ ∃ c, l[i - j]? = some c ∧ used.contains i = false ∧
        t.component_type = c.component_type := by
  intro l
  induction l with
  | nil => intro j i h; cases h
  | cons c rest ih =>
    intro j i h
    rw [findMatchAux] at h
    split_ifs at h with hcond
    · cases h
      rw [Bool.and_eq_true] at hcond
      obtain ⟨hu, hty⟩ := hcond
      exact ⟨le_refl _, c, by simp, by simpa using hu, eq_of_beq hty⟩
    · obtain ⟨hle, c2, hg, hu, hty⟩ := ih (j + 1) i h
      refine ⟨by omega, c2, ?_, hu, hty⟩
      have hidx : i - j = (i - (j + 1)) + 1 := by omega
      rw [hidx]
      simpa using hg

/-- C7 (counterexample): the claim is false as stated — the vision
parallel-aggregate merge (`ParallelAggregateFramework._find_match`, the
matcher the orchestrator's `parallel_aggregate` framework uses) matches a
north-ridge component with a south-valley component of the same type,
although their location hints disagree on both keyword axes (so the claimed
"iff" fails in the only-if direction: type equality alone suffices). -/
theorem parallel_aggregate_match_ignores_location :
    findMatch exNorthComponent [exSouthComponent] [] = some 0 ∧
    locationsSimilar exNorthComponent.location_hint
      exSouthComponent.location_hint = false := by
  exact ⟨rfl, rfl⟩

/-- C7 (amended): the two-axis location heuristic lives in
`VisionAggregator._find_matching_component`, not in the parallel-aggregate
framework: (i) `_locations_similar` returns true exactly when the
compass-direction axis and the roof-feature axis both agree in the spec's
sense (shared keyword, or no keyword on either side); (ii) the
aggregator's matcher returns an index only for an unused same-type
candidate with similar location hints, and returns nothing only when no
unused candidate qualifies; (iii) the framework's `_find_match`, used by
the orchestrator's `parallel_aggregate` strategy, matches on component
type alone. -/
theorem vision_matching_amended :
    (∀ l1 l2 : String, locationsSimilar l1 l2 = true ↔
      (axisAgreement compassDirections l1 l2 ∧ axisAgreement roofFeatures l1 l2)) ∧
    (∀ (t : Component) (cands : List Component) (used : List ℕ) (i : ℕ),
      findMatchingComponent t cands used = some i →
      ∃ c, cands[i]? = some c ∧ used.contains i = false ∧
        t.component_type = c.component_type ∧
        locationsSimilar t.location_hint c.location_hint = true) ∧
    (∀ (t : Component) (cands : List Component) (used : List ℕ),
      findMatchingComponent t cands used = none →
      ∀ (i : ℕ) (c : Component), cands[i]? = some c →
        used.contains i = false →
        ¬(t.component_type = c.component_type ∧
          locationsSimilar t.location_hint c.location_hint = true)) ∧
    (∀ (t : Component) (cands : List Component) (used : List ℕ) (i : ℕ),
      findMatch t cands used = some i →
      ∃ c, cands[i]? = some c ∧ used.contains i = false ∧
        t.component_type = c.component_type) := by
  refine ⟨?_, ?_, ?_, ?_⟩
  · intro l1 l2
    unfold locationsSimilar
    dsimp only
    rw [Bool.and_eq_true]
    exact and_congr (axis_bool_iff_axisAgreement compassDirections l1 l2)
      (axis_bool_iff_axisAgreement roofFeatures l1 l2)
  · intro t cands used i h
    obtain ⟨hle, c, hg, hu, hty, hloc⟩ :=
      findMatchingComponentAux_sound t used cands 0 i h
    refine ⟨c, ?_, hu, hty, hloc⟩
    simpa using hg
  · intro t cands used h i c hget hu
    exact findMatchingComponentAux_none t used cands 0 h i c hget
      (by simpa using hu)
  · intro t cands used i h
    obtain ⟨hle, c, hg, hu, hty⟩ := findMatchAux_sound t used cands 0 i h
    refine ⟨c, ?_, hu, hty⟩
    simpa using hg

/-- Witness for the amended C7 theorem: the aggregator's matcher accepts
a same-type north-ridge pair (both axes agree), its refusal on the
north/south pair rules out every candidate, and the framework's matcher
accepts on type alone. -/
theorem vision_matching_amended_witness :
    (∃ c, [exNorthComponent][0]? = some c ∧
      ([] : List ℕ).contains 0 = false ∧
      exNorthComponent.component_type = c.component_type ∧
      locationsSimilar exNorthComponent.location_hint c.location_hint = true) ∧
    ¬(exNorthComponent.component_type = exSouthComponent.component_type ∧
      locationsSimilar exNorthComponent.location_hint
        exSouthComponent.location_hint = true) ∧
    (∃ c, [exSouthComponent][0]? = some c ∧
      ([] : List ℕ).contains 0 = false ∧
      exNorthComponent.component_type = c.component_type) :=
  ⟨vision_matching_amended.2.1 exNorthComponent [exNorthComponent] [] 0 rfl,
   vision_matching_amended.2.2.1 exNorthComponent [exSouthComponent] [] rfl
     0 exSouthComponent rfl rfl,
   vision_matching_amended.2.2.2 exNorthComponent [exSouthComponent] [] 0 rfl⟩

/-- The supplement scan applies exactly when some supplement matches id and
field existence. -/
theorem applyToFirstSupp_isSome_iff (adj : Adjustment) :
    ∀ l : List SupplementProposal,
      (applyToFirstSupp adj l).isSome = true ↔
      ∃ s ∈ l, s.supplement_id = adj.target_id ∧ adj.field ∈ suppFieldNames := by
  intro l
  induction l with
  | nil => simp [applyToFirstSupp]
  | cons s rest ih =>
    rw [applyToFirstSupp]
    split_ifs with hcond
    · rw [Bool.and_eq_true] at hcond
      simp only [Option.isSome_some, true_iff]
      exact ⟨s, List.mem_cons_self _ _, eq_of_beq hcond.1,
        List.elem_iff.mp hcond.2⟩
    · have hmap : (Option.map (fun l => s :: l)
          (applyToFirstSupp adj rest)).isSome = (applyToFirstSupp adj rest).isSome := by
        cases applyToFirstSupp adj rest <;> rfl
      rw [hmap, ih]
      constructor
      · rintro ⟨s2, hs2, hid, hf⟩
        exact ⟨s2, List.mem_cons_of_mem _ hs2, hid, hf⟩
      · rintro ⟨s2, hs2, hid, hf⟩
        rcases List.mem_cons.mp hs2 with rfl | h3
        · exact absurd (by
            rw [Bool.and_eq_true]
            exact ⟨beq_iff_eq.mpr hid, List.elem_iff.mpr hf⟩) hcond
        · exact ⟨s2, h3, hid, hf⟩

/-- When the supplement scan applies, it sets the named field of a matching
supplement to the suggested value (patching it in place in the list). -/
theorem applyToFirstSupp_some (adj : Adjustment) :
    ∀ (l l' : List SupplementProposal), applyToFirstSupp adj l = some l' →
      ∃ i s, l[i]? = some s ∧ s.supplement_id = adj.target_id ∧
        adj.field ∈ suppFieldNames ∧
        l' = l.set i (setSuppField s adj.field adj.suggested_value) := by
  intro l
  induction l with
  | nil => intro l' h; cases h
  | cons s rest ih =>
    intro l' h
    rw [applyToFirstSupp] at h
    split_ifs at h with hcond
    · cases h
      rw [Bool.and_eq_true] at hcond
      exact ⟨0, s, by simp, eq_of_beq hcond.1, List.elem_iff.mp hcond.2, by simp⟩
    · rw [Option.map_eq_some'] at h
      obtain ⟨l2, hl2, rfl⟩ := h
      obtain ⟨i, s2, hget, hid, hf, hset⟩ := ih l2 hl2
      exact ⟨i + 1, s2, by simpa using hget, hid, hf, by simp [hset]⟩

/-- The gap scan applies exactly when some gap matches id and field
existence. -/
theorem applyToFirstGap_isSome_iff (adj : Adjustment) :
    ∀ l : List ScopeGap,
      (applyToFirstGap adj l).isSome = true ↔
      ∃ g ∈ l, g.gap_id = adj.target_id ∧ adj.field ∈ gapFieldNames := by
  intro l
  induction l with
  | nil => simp [applyToFirstGap]
  | cons g rest ih =>
    rw [applyToFirstGap]
    split_ifs with hcond
    · rw [Bool.and_eq_true] at hcond
      simp only [Option.isSome_some, true_iff]
      exact ⟨g, List.mem_cons_self _ _, eq_of_beq hcond.1,
        List.elem_iff.mp hcond.2⟩
    · have hmap : (Option.map (fun l => g :: l)
          (applyToFirstGap adj rest)).isSome = (applyToFirstGap adj rest).isSome := by
        cases applyToFirstGap adj rest <;> rfl
      rw [hmap, ih]
      constructor
      · rintro ⟨g2, hg2, hid, hf⟩
        exact ⟨g2, List.mem_cons_of_mem _ hg2, hid, hf⟩
      · rintro ⟨g2, hg2, hid, hf⟩
        rcases List.mem_cons.mp hg2 with rfl | h3
        · exact absurd (by
            rw [Bool.and_eq_true]
            exact ⟨beq_iff_eq.mpr hid, List.elem_iff.mpr hf⟩) hcond
        · exact ⟨g2, h3, hid, hf⟩

/-- When the gap scan applies, it sets the named field of a matching gap to
the suggested value. -/
theorem applyToFirstGap_some (adj : Adjustment) :
    ∀ (l l' : List ScopeGap), applyToFirstGap adj l = some l' →
      ∃ i g, l[i]? = some g ∧ g.gap_id = adj.target_id ∧
        adj.field ∈ gapFieldNames ∧
        l' = l.set i (setGapField g adj.field adj.suggested_value) := by
  intro l
  induction l with
  | nil => intro l' h; cases h
  | cons g rest ih =>
    intro l' h
    rw [applyToFirstGap] at h
    split_ifs at h with hcond
    · cases h
      rw [Bool.and_eq_true] at hcond
      exact ⟨0, g, by simp, eq_of_beq hcond.1, List.elem_iff.mp hcond.2, by simp⟩
    · rw [Option.map_eq_some'] at h
      obtain ⟨l2, hl2, rfl⟩ := h
      obtain ⟨i, g2, hget, hid, hf, hset⟩ := ih l2 hl2
      exact ⟨i + 1, g2, by simpa using hget, hid, hf, by simp [hset]⟩

/-- C8 (counterexample): the claim is false as stated — an adjustment with
target type "line_item" is never applied, even though the targeted line
item exists in the orchestration context and has the named field: the
review loop's dispatcher has no line-item branch (nor an evidence branch),
so the adjustment is a warning-logged no-op and the context is unchanged. -/
theorem line_item_adjustment_never_applied :
    (∃ e, exLineItemCtx.estimate_interpretation = some e ∧
      ∃ li ∈ e.line_items, li.line_id = exLineItemAdjustment.target_id) ∧
    exLineItemAdjustment.field ∈ lineItemFieldNames ∧
    exLineItemAdjustment.target_type = "line_item" ∧
    applyAdjustment exLineItemCtx exLineItemAdjustment =
      (exLineItemCtx, false) := by
  refine ⟨⟨_, rfl, exLineItem, ?_, rfl⟩, ?_, rfl, rfl⟩
  · exact List.mem_cons_self _ _
  · simp [exLineItemAdjustment, lineItemFieldNames]

/-- C8 (amended): for the three target types the dispatcher handles —
supplement, gap, and margin_analysis (the last not even admitted by the
`Adjustment` schema's enum, which is {supplement, gap, line_item,
evidence}) — an adjustment is counted as a change exactly when the target
object exists in the context and has the named field, and in that case the
named field of the (first) matching object is set to the suggested value;
whenever no change is counted the context is left unchanged; and target
types "line_item" and "evidence" are unconditional no-ops. -/
theorem review_adjustment_application_amended :
    (∀ (ctx : LoopCtx) (adj : Adjustment), adj.target_type = "line_item" →
      applyAdjustment ctx adj = (ctx, false)) ∧
    (∀ (ctx : LoopCtx) (adj : Adjustment), adj.target_type = "evidence" →
      applyAdjustment ctx adj = (ctx, false)) ∧
    (∀ (ctx : LoopCtx) (adj : Adjustment),
      (applyAdjustment ctx adj).2 = false → (applyAdjustment ctx adj).1 = ctx) ∧
    (∀ (ctx : LoopCtx) (adj : Adjustment) (strategy : SupplementStrategy),
      adj.target_type = "supplement" →
      ctx.supplement_strategy = some strategy →
      ((applyAdjustment ctx adj).2 = true ↔
        ∃ s ∈ strategy.supplements,
          s.supplement_id = adj.target_id ∧ adj.field ∈ suppFieldNames)) ∧
    (∀ (ctx : LoopCtx) (adj : Adjustment) (strategy : SupplementStrategy),
      adj.target_type = "supplement" →
      ctx.supplement_strategy = some strategy →
      (applyAdjustment ctx adj).2 = true →
      ∃ i s, strategy.supplements[i]? = some s ∧
        s.supplement_id = adj.target_id ∧ adj.field ∈ suppFieldNames ∧
        (applyAdjustment ctx adj).1 = { ctx with
          supplement_strategy := some { strategy with
            supplements := strategy.supplements.set i
              (setSuppField s adj.field adj.suggested_value) } }) ∧
    (∀ (ctx : LoopCtx) (adj : Adjustment) (ga : GapAnalysis),
      adj.target_type = "gap" →
      ctx.gap_analysis = some ga →
      ((applyAdjustment ctx adj).2 = true ↔
        ∃ g ∈ ga.scope_gaps,
          g.gap_id = adj.target_id ∧ adj.field ∈ gapFieldNames)) ∧
    (∀ (ctx : LoopCtx) (adj : Adjustment) (ga : GapAnalysis),
      adj.target_type = "gap" →
      ctx.gap_analysis = some ga →
      (applyAdjustment ctx adj).2 = true →
      ∃ i g, ga.scope_gaps[i]? = some g ∧
        g.gap_id = adj.target_id ∧ adj.field ∈ gapFieldNames ∧
        (applyAdjustment ctx adj).1 = { ctx with
          gap_analysis := some { ga with
            scope_gaps := ga.scope_gaps.set i
              (setGapField g adj.field adj.suggested_value) } }) ∧
    (∀ (ctx : LoopCtx) (adj : Adjustment) (strategy : SupplementStrategy),
      adj.target_type = "margin_analysis" →
      ctx.supplement_strategy = some strategy →
      adj.field ∈ marginFieldNames →
      applyAdjustment ctx adj = ({ ctx with
        supplement_strategy := some { strategy with
          margin_analysis := setMarginField strategy.margin_analysis adj.field
            adj.suggested_value } }, true)) := by
  refine ⟨?_, ?_, ?_, ?_, ?_, ?_, ?_, ?_⟩
  · intro ctx adj h
    unfold applyAdjustment
    rw [h]
    rfl
  · intro ctx adj h
    unfold applyAdjustment
    rw [h]
    rfl
  · intro ctx adj h
    unfold applyAdjustment at h ⊢
    split_ifs at h ⊢
    · unfold applySupplementAdjustment at h ⊢
      cases hst : ctx.supplement_strategy with
      | none => rfl
      | some strategy =>
        rw [hst] at h
        dsimp only at h ⊢
        cases hap : applyToFirstSupp adj strategy.supplements with
        | none => rfl
        | some l => rw [hap] at h; cases h
    · unfold applyGapAdjustment at h ⊢
      cases hst : ctx.gap_analysis with
      | none => rfl
      | some ga =>
        rw [hst] at h
        dsimp only at h ⊢
        cases hap : applyToFirstGap adj ga.scope_gaps with
        | none => rfl
        | some l => rw [hap] at h; cases h
    · unfold applyMarginAdjustment at h ⊢
      cases hst : ctx.supplement_strategy with
      | none => rfl
      | some strategy =>
        rw [hst] at h
        dsimp only at h ⊢
        split_ifs at h ⊢ with hf
        rfl
    · rfl
  · intro ctx adj strategy ht hst
    unfold applyAdjustment
    rw [ht]
    show (applySupplementAdjustment ctx adj).2 = true ↔ _
    unfold applySupplementAdjustment
    rw [hst]
    dsimp only
    cases hap : applyToFirstSupp adj strategy.supplements with
    | none =>
      have := (applyToFirstSupp_isSome_iff adj strategy.supplements)
      rw [hap] at this
      simpa using this
    | some l =>
      have := (applyToFirstSupp_isSome_iff adj strategy.supplements)
      rw [hap] at this
      simpa using this
  · intro ctx adj strategy ht hst happ
    have hd : applyAdjustment ctx adj = applySupplementAdjustment ctx adj := by
      unfold applyAdjustment
      rw [ht]
      rfl
    rw [hd] at happ ⊢
    unfold applySupplementAdjustment at happ ⊢
    rw [hst] at happ ⊢
    dsimp only at happ ⊢
    cases hap : applyToFirstSupp adj strategy.supplements with
    | none => rw [hap] at happ; cases happ
    | some l =>
      obtain ⟨i, s, hget, hid, hf, hset⟩ :=
        applyToFirstSupp_some adj strategy.supplements l hap
      refine ⟨i, s, hget, hid, hf, ?_⟩
      dsimp only
      rw [hset]
  · intro ctx adj ga ht hst
    unfold applyAdjustment
    rw [ht]
    show (applyGapAdjustment ctx adj).2 = true ↔ _
    unfold applyGapAdjustment
    rw [hst]
    dsimp only
    cases hap : applyToFirstGap adj ga.scope_gaps with
    | none =>
      have := (applyToFirstGap_isSome_iff adj ga.scope_gaps)
      rw [hap] at this
      simpa using this
    | some l =>
      have := (applyToFirstGap_isSome_iff adj ga.scope_gaps)
      rw [hap] at this
      simpa using this
  · intro ctx adj ga ht hst happ
    have hd : applyAdjustment ctx adj = applyGapAdjustment ctx adj := by
      unfold applyAdjustment
      rw [ht]
      rfl
    rw [hd] at happ ⊢
    unfold applyGapAdjustment at happ ⊢
    rw [hst] at happ ⊢
    dsimp only at happ ⊢
    cases hap : applyToFirstGap adj ga.scope_gaps with
    | none => rw [hap] at happ; cases happ
    | some l =>
      obtain ⟨i, g, hget, hid, hf, hset⟩ :=
        applyToFirstGap_some adj ga.scope_gaps l hap
      refine ⟨i, g, hget, hid, hf, ?_⟩
      dsimp only
      rw [hset]
  · intro ctx adj strategy ht hst hf
    unfold applyAdjustment
    rw [ht]
    show applyMarginAdjustment ctx adj = _
    unfold applyMarginAdjustment
    rw [hst]
    dsimp only
    rw [if_pos (List.elem_iff.mpr hf)]

/-- Witness for the amended C8 theorem: the margin-analysis branch applied
to the concrete context patches the named field and reports the change. -/
theorem review_adjustment_application_amended_witness :
    applyAdjustment exStrategyCtx exMarginAdjustment =
      ({ exStrategyCtx with
        supplement_strategy := some { exStrategy with
          margin_analysis := setMarginField exStrategy.margin_analysis
            exMarginAdjustment.field exMarginAdjustment.suggested_value } },
       true) :=
  review_adjustment_application_amended.2.2.2.2.2.2.2 exStrategyCtx
    exMarginAdjustment exStrategy rfl rfl
    (by simp [exMarginAdjustment, marginFieldNames])

end InsSup
